import Mathlib

/-!
MuseScore engraving text model (`src/engraving/dom/textbase.h`) and frames
(`src/engraving/dom/box.cpp`).

A shallow embedding of the rich-text value types declared in `textbase.h`
(`CharFormat`, `TextCursor`, `TextFragment`, `TextBlock`) and of the frame
member functions of `box.cpp` (`Box`, `HBox`, `FBox`), together with the
properties of them that the design document states.

Conventions of the embedding:

* `size_t` and `int` counters are natural numbers; the properties below
  compare and add row/column indices of in-memory text and never come near the
  word size.
* `double` values (font size, geometry) are exact rationals; no property below
  depends on rounding.
* A `String` of the engraving library is a list of characters, so that a
  column is an index into that list.
* Member functions that mutate `this` return the new value; a member that
  also returns a result returns a pair `(result, this afterwards)`.

The header gives the data layout and the inline members.  The out-of-line
members live in `textbase.cpp`; each definition that stands for one of them
says so in its doc comment and follows the design document.
-/

namespace MuseScore

/-! ## Definitions -/

/-- The enum `VerticalAlignment` of `textbase.h` (`AlignUndefined = -1`, then
`AlignNormal`, `AlignSuperScript`, `AlignSubScript`). -/
inductive VerticalAlignment
  | AlignUndefined
  | AlignNormal
  | AlignSuperScript
  | AlignSubScript
  deriving DecidableEq, Repr

/-- The enum `FormatId` of `textbase.h`. -/
inductive FormatId
  | Bold | Italic | Underline | Strike | Valign | FontSize | FontFamily
  deriving DecidableEq, Repr

/-- Modelled from the spec: the type `FontStyle` (declared in `types.h`), which
`CharFormat` uses for its style flags: "style flags (bold, italic, underline,
strike) packed as an enumerated bit-set".  The value is the bit pattern. -/
structure FontStyle where
  bits : Nat
  deriving DecidableEq, Repr

namespace FontStyle

/-- Modelled from the spec: the empty flag set `FontStyle::Normal`. -/
def Normal : FontStyle := ⟨0⟩
/-- Modelled from the spec: the flag `FontStyle::Bold`, one bit of the set. -/
def Bold : FontStyle := ⟨1⟩
/-- Modelled from the spec: the flag `FontStyle::Italic`, one bit of the set. -/
def Italic : FontStyle := ⟨2⟩
/-- Modelled from the spec: the flag `FontStyle::Underline`, one bit of the set. -/
def Underline : FontStyle := ⟨4⟩
/-- Modelled from the spec: the flag `FontStyle::Strike`, one bit of the set. -/
def Strike : FontStyle := ⟨8⟩

/-- Modelled from the spec: `operator+` on `FontStyle` (in `types.h`), which
adds the flags of `b` to the bit-set `a`. -/
def plus (a b : FontStyle) : FontStyle := ⟨a.bits ||| b.bits⟩

/-- Modelled from the spec: `operator-` on `FontStyle` (in `types.h`), which
removes the flags of `b` from the bit-set `a`. -/
def minus (a b : FontStyle) : FontStyle := ⟨a.bits ^^^ (a.bits &&& b.bits)⟩

/-- Modelled from the spec: `operator&` on `FontStyle` (in `types.h`), the test
whether the bit-sets `a` and `b` share a flag. -/
def has (a b : FontStyle) : Bool := (a.bits &&& b.bits) != 0

/-- A style is defined when it is a combination of the four flags. -/
def defined (s : FontStyle) : Prop := s.bits < 16

instance (s : FontStyle) : Decidable s.defined :=
  inferInstanceAs (Decidable (s.bits < 16))

/-- The flag update that the four style setters of `CharFormat` perform:
`val ? s + flag : s - flag`. -/
def setFlag (s flag : FontStyle) (val : Bool) : FontStyle :=
  if val then s.plus flag else s.minus flag

end FontStyle

/-- The class `CharFormat` of `textbase.h`, with the member initialisers of the
header as field defaults. -/
structure CharFormat where
  _style : FontStyle := FontStyle.Normal
  _valign : VerticalAlignment := VerticalAlignment.AlignNormal
  _fontSize : ℚ := 12
  _fontFamily : String := ""
  deriving DecidableEq

namespace CharFormat

/-- Member `FontStyle style() const { return _style; }` -/
def style (f : CharFormat) : FontStyle := f._style
/-- Member `void setStyle(FontStyle s) { _style = s; }` -/
def setStyle (f : CharFormat) (s : FontStyle) : CharFormat := { f with _style := s }
/-- Member `bool bold() const { return _style & FontStyle::Bold; }` -/
def bold (f : CharFormat) : Bool := f._style.has FontStyle.Bold
/-- Member `bool italic() const { return _style & FontStyle::Italic; }` -/
def italic (f : CharFormat) : Bool := f._style.has FontStyle.Italic
/-- Member `bool underline() const { return _style & FontStyle::Underline; }` -/
def underline (f : CharFormat) : Bool := f._style.has FontStyle.Underline
/-- Member `bool strike() const { return _style & FontStyle::Strike; }` -/
def strike (f : CharFormat) : Bool := f._style.has FontStyle.Strike

/-- Member `void setBold(bool val) { _style = val ? _style + FontStyle::Bold : _style - FontStyle::Bold; }` -/
def setBold (f : CharFormat) (val : Bool) : CharFormat :=
  { f with _style := if val then f._style.plus FontStyle.Bold else f._style.minus FontStyle.Bold }
/-- Member `void setItalic(bool val)`, as `setBold` with `FontStyle::Italic`. -/
def setItalic (f : CharFormat) (val : Bool) : CharFormat :=
  { f with _style := if val then f._style.plus FontStyle.Italic else f._style.minus FontStyle.Italic }
/-- Member `void setUnderline(bool val)`, as `setBold` with `FontStyle::Underline`. -/
def setUnderline (f : CharFormat) (val : Bool) : CharFormat :=
  { f with _style :=
      if val then f._style.plus FontStyle.Underline else f._style.minus FontStyle.Underline }
/-- Member `void setStrike(bool val)`, as `setBold` with `FontStyle::Strike`. -/
def setStrike (f : CharFormat) (val : Bool) : CharFormat :=
  { f with _style := if val then f._style.plus FontStyle.Strike else f._style.minus FontStyle.Strike }

/-- Member `VerticalAlignment valign() const { return _valign; }` -/
def valign (f : CharFormat) : VerticalAlignment := f._valign
/-- Member `double fontSize() const { return _fontSize; }` -/
def fontSize (f : CharFormat) : ℚ := f._fontSize
/-- Member `String fontFamily() const { return _fontFamily; }` -/
def fontFamily (f : CharFormat) : String := f._fontFamily
/-- Member `void setValign(VerticalAlignment val) { _valign = val; }` -/
def setValign (f : CharFormat) (val : VerticalAlignment) : CharFormat := { f with _valign := val }
/-- Member `void setFontSize(double val) { _fontSize = val; }` -/
def setFontSize (f : CharFormat) (val : ℚ) : CharFormat := { f with _fontSize := val }
/-- Member `void setFontFamily(const String& val) { _fontFamily = val; }` -/
def setFontFamily (f : CharFormat) (val : String) : CharFormat := { f with _fontFamily := val }

/-- The three alignments the design document lists: normal, superscript and
subscript. -/
def valignListed (v : VerticalAlignment) : Prop :=
  v = VerticalAlignment.AlignNormal ∨ v = VerticalAlignment.AlignSuperScript
    ∨ v = VerticalAlignment.AlignSubScript

instance (v : VerticalAlignment) : Decidable (valignListed v) :=
  inferInstanceAs (Decidable (v = VerticalAlignment.AlignNormal
    ∨ v = VerticalAlignment.AlignSuperScript ∨ v = VerticalAlignment.AlignSubScript))

/-- A sequence of `setValign` calls applied in order. -/
def setValigns (f : CharFormat) (vals : List VerticalAlignment) : CharFormat :=
  vals.foldl setValign f

end CharFormat

/-- The data members of the class `TextCursor` of `textbase.h`, with the member
initialisers of the header as field defaults.  The pointer `_text` to the
owning text item is not stored: the members that read the item take its blocks
as an argument. -/
structure TextCursor where
  _format : CharFormat := {}
  _row : Nat := 0
  _column : Nat := 0
  _selectLine : Nat := 0
  _selectColumn : Nat := 0
  _editing : Bool := false
  deriving DecidableEq

namespace TextCursor

/-- The enum `TextCursor::MoveOperation`. -/
inductive MoveOperation
  | Start | Up | StartOfLine | Left | WordLeft | End | Down | EndOfLine | NextWord | Right
  deriving DecidableEq, Repr

/-- The enum `TextCursor::MoveMode`. -/
inductive MoveMode
  | MoveAnchor | KeepAnchor
  deriving DecidableEq, Repr

/-- Member `bool hasSelection() const { return (_selectLine != _row) || (_selectColumn != _column); }` -/
def hasSelection (c : TextCursor) : Bool :=
  (c._selectLine != c._row) || (c._selectColumn != c._column)

/-- Member `bool editing() const { return _editing; }` -/
def editing (c : TextCursor) : Bool := c._editing
/-- Member `const CharFormat* format() const { return &_format; }` -/
def format (c : TextCursor) : CharFormat := c._format
/-- Member `void setFormat(const CharFormat& f) { _format = f; }` -/
def setFormat (c : TextCursor) (f : CharFormat) : TextCursor := { c with _format := f }
/-- Member `size_t row() const { return _row; }` -/
def row (c : TextCursor) : Nat := c._row
/-- Member `size_t column() const { return _column; }` -/
def column (c : TextCursor) : Nat := c._column
/-- Member `size_t selectLine() const { return _selectLine; }` -/
def selectLine (c : TextCursor) : Nat := c._selectLine
/-- Member `size_t selectColumn() const { return _selectColumn; }` -/
def selectColumn (c : TextCursor) : Nat := c._selectColumn
/-- Member `void setRow(size_t val) { _row = val; }` -/
def setRow (c : TextCursor) (val : Nat) : TextCursor := { c with _row := val }
/-- Member `void setColumn(size_t val) { _column = val; }` -/
def setColumn (c : TextCursor) (val : Nat) : TextCursor := { c with _column := val }
/-- Member `void setSelectLine(size_t val) { _selectLine = val; }` -/
def setSelectLine (c : TextCursor) (val : Nat) : TextCursor := { c with _selectLine := val }
/-- Member `void setSelectColumn(size_t val) { _selectColumn = val; }` -/
def setSelectColumn (c : TextCursor) (val : Nat) : TextCursor := { c with _selectColumn := val }

end TextCursor

/-- The type `mu::PointF` of the draw library, which `textbase.h` uses for the
draw offset of a fragment. -/
structure PointF where
  x : ℚ := 0
  y : ℚ := 0
  deriving DecidableEq

/-- The type `mu::RectF` of the draw library, which `textbase.h` uses for the
cached bounding box of a block. -/
structure RectF where
  x : ℚ := 0
  y : ℚ := 0
  w : ℚ := 0
  h : ℚ := 0
  deriving DecidableEq

/-- The data members of the class `TextFragment` of `textbase.h`: a run of
characters with one format. -/
structure TextFragment where
  format : CharFormat := {}
  pos : PointF := {}
  text : List Char := []
  deriving DecidableEq

namespace TextFragment

/-- Modelled from the spec: the constructor `TextFragment(TextCursor*, const
String&)`, whose body is in `textbase.cpp`: "a new fragment with the cursor's
format" holding the given text. -/
def fromCursor (cursor : TextCursor) (s : List Char) : TextFragment :=
  { format := cursor.format, text := s }

/-- Modelled from the spec: `TextFragment::columns()`, whose body is in
`textbase.cpp`: "character count of the run (not byte count)". -/
def columns (f : TextFragment) : Nat := f.text.length

/-- Modelled from the spec: `TextFragment::split(int column)`, whose body is in
`textbase.cpp`: "returns a new fragment holding text from `column` to the end
(same format, position recomputed by caller) and truncates this fragment to
`[0, column)`".  The result is `(returned fragment, this afterwards)`.  The
contract is `0 < column < columns()`; outside it the design document leaves the
result open, and nothing below is stated there. -/
def split (f : TextFragment) (column : Nat) : TextFragment × TextFragment :=
  ({ format := f.format, text := f.text.drop column }, { f with text := f.text.take column })

end TextFragment

/-- The data members of the class `TextBlock` of `textbase.h`: one line of
text as an ordered list of fragments, with the line-level layout state. -/
structure TextBlock where
  _fragments : List TextFragment := []
  _y : ℚ := 0
  _lineSpacing : ℚ := 0
  _bbox : RectF := {}
  _eol : Bool := false
  deriving DecidableEq

namespace TextBlock

/-- Member `const std::list<TextFragment>& fragments() const { return _fragments; }` -/
def fragments (b : TextBlock) : List TextFragment := b._fragments
/-- Member `bool eol() const { return _eol; }` -/
def eol (b : TextBlock) : Bool := b._eol
/-- Member `void setEol(bool val) { _eol = val; }` -/
def setEol (b : TextBlock) (val : Bool) : TextBlock := { b with _eol := val }

/-- Modelled from the spec: `TextBlock::columns()`, whose body is in
`textbase.cpp`: the column count of the line, found like every column address
"by linear scan accumulating fragment lengths". -/
def columns (b : TextBlock) : Nat :=
  b._fragments.foldl (fun col f => col + f.columns) 0

/-- The texts of a list of fragments, concatenated in order. -/
def fragmentsText : List TextFragment → List Char
  | [] => []
  | f :: fs => f.text ++ fragmentsText fs

/-- Modelled from the spec: the plain text of the line, which `TextBlock::text`
(body in `textbase.cpp`) extracts: "concatenation of fragment texts in order
equals the line's plain text". -/
def plainText (b : TextBlock) : List Char := fragmentsText b._fragments

/-- Modelled from the spec: `TextBlock::removeEmptyFragment()`, whose body is
in `textbase.cpp`: "any fragment left with empty text is removed". -/
def removeEmptyFragment (b : TextBlock) : TextBlock :=
  { b with _fragments := b._fragments.filter (fun f => !f.text.isEmpty) }

/-- The merging pass of simplification, left to right: `cur` is the run being
grown; a following fragment with the same format is appended to it, a fragment
with another format closes it and becomes the run being grown. -/
def mergeFrom (cur : TextFragment) : List TextFragment → List TextFragment
  | [] => [cur]
  | g :: gs =>
    if g.format = cur.format then mergeFrom { cur with text := cur.text ++ g.text } gs
    else cur :: mergeFrom g gs

/-- The merging pass of simplification on a whole fragment list. -/
def mergeAdjacent : List TextFragment → List TextFragment
  | [] => []
  | f :: fs => mergeFrom f fs

/-- Modelled from the spec: `TextBlock::simplify()`, whose body is in
`textbase.cpp`: "merging adjacent runs with identical style and dropping empty
runs"; the exception for "the sole run of an empty line" is
`insertEmptyFragmentIfNeeded`, which the editing operations run afterwards. -/
def simplify (b : TextBlock) : TextBlock :=
  { b with _fragments := mergeAdjacent b.removeEmptyFragment._fragments }

/-- Modelled from the spec: `TextBlock::insertEmptyFragmentIfNeeded(TextCursor*)`,
whose body is in `textbase.cpp`: "an empty block keeps exactly one empty
fragment carrying the caret's current format". -/
def insertEmptyFragmentIfNeeded (b : TextBlock) (cursor : TextCursor) : TextBlock :=
  if b._fragments = [] then { b with _fragments := [TextFragment.fromCursor cursor []] } else b

/-- The fragment-list part of `insert`: the scan for the fragment that contains
`column` and the edit there.  A fragment contains the columns from its first
character up to, not including, the first character of the next fragment; the
one-past-end column is contained in no fragment.  With the caret's format the
text is spliced into the fragment; with another format a new fragment is put
before the fragment (local column 0), between the two pieces of the split
fragment (local column inside), or at the end (no containing fragment). -/
def insertFragments (fmt : CharFormat) (s : List Char) :
    List TextFragment → Nat → List TextFragment
  | [], _ => [{ format := fmt, text := s }]
  | f :: fs, column =>
    if column < f.columns then
      if f.format = fmt then
        { f with text := f.text.take column ++ s ++ f.text.drop column } :: fs
      else if column = 0 then
        { format := fmt, text := s } :: f :: fs
      else
        (f.split column).2 :: { format := fmt, text := s } :: (f.split column).1 :: fs
    else f :: insertFragments fmt s fs (column - f.columns)

/-- Modelled from the spec: `TextBlock::insert(TextCursor*, const String&)`,
whose body is in `textbase.cpp`: "locates the fragment containing the cursor's
column; if the cursor's live format differs from that fragment's format, the
fragment is split at the cursor and a new fragment with the cursor's format is
inserted between the pieces (or appended/prepended at a boundary) before the
text is spliced in; then simplification merges any newly-adjacent same-format
fragments". -/
def insert (b : TextBlock) (cursor : TextCursor) (s : List Char) : TextBlock :=
  (simplify { b with _fragments :=
      insertFragments cursor.format s b._fragments cursor.column }).insertEmptyFragmentIfNeeded
    cursor

/-- The fragment-list part of `remove`: takes the `n` characters from column
`start` on out of the fragments they lie in and returns them with the trimmed
fragments. -/
def removeChars : List TextFragment → Nat → Nat → List Char × List TextFragment
  | [], _, _ => ([], [])
  | f :: fs, start, n =>
    if start < f.columns then
      let k := min n (f.columns - start)
      let rest := removeChars fs 0 (n - k)
      ((f.text.drop start).take k ++ rest.1,
        { f with text := f.text.take start ++ f.text.drop (start + k) } :: rest.2)
    else
      let rest := removeChars fs (start - f.columns) n
      (rest.1, f :: rest.2)

/-- Modelled from the spec: `TextBlock::remove(int start, int n, TextCursor*)`,
whose body is in `textbase.cpp`: "removes `n` characters beginning at `start`,
... trimming/merging fragments and removing zero-length fragments, then
re-running simplification"; a block left without text keeps "one empty fragment
carrying the current caret format".  The result is `(removed text, this
afterwards)`. -/
def removeN (b : TextBlock) (start n : Nat) (cursor : TextCursor) : List Char × TextBlock :=
  ((removeChars b._fragments start n).1,
    (simplify { b with _fragments :=
        (removeChars b._fragments start n).2 }).insertEmptyFragmentIfNeeded cursor)

/-- Modelled from the spec: `TextBlock::remove(int column, TextCursor*)`, whose
body is in `textbase.cpp`: "removes exactly one character at `column`", with
the same trimming and simplification as the overload with a count. -/
def remove (b : TextBlock) (column : Nat) (cursor : TextCursor) : List Char × TextBlock :=
  b.removeN column 1 cursor

/-- The fragment-list part of `split`: the fragments before `column` and the
fragments from `column` on, a fragment that contains `column` strictly inside
being cut with `TextFragment::split`. -/
def splitFragments : List TextFragment → Nat → List TextFragment × List TextFragment
  | [], _ => ([], [])
  | f :: fs, column =>
    if column = 0 then ([], f :: fs)
    else if column < f.columns then ([(f.split column).2], (f.split column).1 :: fs)
    else
      let rest := splitFragments fs (column - f.columns)
      (f :: rest.1, rest.2)

/-- Modelled from the spec: `TextBlock::split(int column, TextCursor* cursor)`,
whose body is in `textbase.cpp`: "produces a new TextBlock owning all fragments
(or fragment remainders) from `column` onward, leaving this block with the
prefix; the new block inherits `eol` from this block and this block's `eol` is
cleared".  Either block, when left without fragments, gets the empty fragment
with the caret's format.  The result is `(new block, this afterwards)`. -/
def split (b : TextBlock) (column : Nat) (cursor : TextCursor) : TextBlock × TextBlock :=
  (({ _fragments := (splitFragments b._fragments column).2,
      _eol := b._eol } : TextBlock).insertEmptyFragmentIfNeeded cursor,
    ({ b with _fragments := (splitFragments b._fragments column).1,
              _eol := false } : TextBlock).insertEmptyFragmentIfNeeded cursor)

/-- The check that no two consecutive fragments of a list have the same
format. -/
def formatsDiffer : List TextFragment → Bool
  | f :: g :: rest => decide (f.format ≠ g.format) && formatsDiffer (g :: rest)
  | _ => true

/-- The invariant of the data model on the fragments of a block: there is a
fragment, no two consecutive fragments have the same format, and a fragment
with empty text is the only fragment of its block. -/
def wellFormed (b : TextBlock) : Prop :=
  b._fragments ≠ []
    ∧ formatsDiffer b._fragments = true
    ∧ ∀ f ∈ b._fragments, f.text = [] → b._fragments = [f]

instance (b : TextBlock) : Decidable b.wellFormed :=
  inferInstanceAs (Decidable (b._fragments ≠ []
    ∧ formatsDiffer b._fragments = true
    ∧ ∀ f ∈ b._fragments, f.text = [] → b._fragments = [f]))

/-- One editing call on a block: `insert(cursor, s)`, `remove(column, cursor)`
or `remove(start, n, cursor)`. -/
inductive Edit
  | insert (cursor : TextCursor) (s : List Char)
  | remove (column : Nat) (cursor : TextCursor)
  | removeN (start n : Nat) (cursor : TextCursor)

/-- The columns of an editing call are in range for the block: the caret
column of an insertion and the column of a removal lie in `[0, columns()]`, and
a removed range ends inside the line. -/
def Edit.inRange (b : TextBlock) : Edit → Prop
  | Edit.insert cursor _ => cursor.column ≤ b.columns
  | Edit.remove column _ => column ≤ b.columns
  | Edit.removeN start n _ => start + n ≤ b.columns

instance (b : TextBlock) (e : Edit) : Decidable (e.inRange b) :=
  match e with
  | Edit.insert cursor _ => inferInstanceAs (Decidable (cursor.column ≤ b.columns))
  | Edit.remove column _ => inferInstanceAs (Decidable (column ≤ b.columns))
  | Edit.removeN start n _ => inferInstanceAs (Decidable (start + n ≤ b.columns))

/-- The block after one editing call. -/
def Edit.apply (b : TextBlock) : Edit → TextBlock
  | Edit.insert cursor s => b.insert cursor s
  | Edit.remove column cursor => (b.remove column cursor).2
  | Edit.removeN start n cursor => (b.removeN start n cursor).2

/-- The block after a sequence of editing calls, each with columns in range
for the block it is applied to; `none` when a call is out of range. -/
def applyEdits : TextBlock → List Edit → Option TextBlock
  | b, [] => some b
  | b, e :: es => if e.inRange b then applyEdits (e.apply b) es else none

end TextBlock

namespace TextCursor

/-- The column count of line `row` of the text, `0` when there is no such
line. -/
def lineColumns (blocks : List TextBlock) (row : Nat) : Nat :=
  match blocks[row]? with
  | some b => b.columns
  | none => 0

/-- Modelled from the spec: `TextCursor::columns()`, whose body is in
`textbase.cpp`: the column count of the line the caret is in. -/
def columns (blocks : List TextBlock) (c : TextCursor) : Nat := lineColumns blocks c._row

/-- Modelled from the spec: `TextCursor::clearSelection()`, whose body is in
`textbase.cpp`: "collapses the anchor to the new caret position (clears
selection)". -/
def clearSelection (c : TextCursor) : TextCursor :=
  { c with _selectLine := c._row, _selectColumn := c._column }

/-- Modelled from the spec: `TextCursor::position(int row, int column)`, whose
body is in `textbase.cpp`: the "single linear character offset (counting one
unit per line break)" of `(row, column)`: one unit for each character and one
for the line break of every line before `row`, plus `column`. -/
def position (blocks : List TextBlock) (row column : Nat) : Nat :=
  ((blocks.take row).map (fun b => b.columns + 1)).sum + column

/-- Modelled from the spec: `TextCursor::currentPosition()`, whose body is in
`textbase.cpp`: the linear offset of the caret. -/
def currentPosition (blocks : List TextBlock) (c : TextCursor) : Nat :=
  position blocks c._row c._column

/-- The scan of `positionToLocalCoord`: `row` is the index of the first line
of `blocks` in the text and `position` the offset still to go from the start
of that line. -/
def positionToLocalCoordFrom : List TextBlock → Nat → Nat → Option (Nat × Nat)
  | [], _, _ => none
  | b :: bs, row, position =>
    if position ≤ b.columns then some (row, position)
    else positionToLocalCoordFrom bs (row + 1) (position - b.columns - 1)

/-- Modelled from the spec: `TextCursor::positionToLocalCoord(int position)`,
whose body is in `textbase.cpp`: the `(row, column)` of a linear offset that
counts one unit per character and one per line break; `none` for an offset
past the end of the text. -/
def positionToLocalCoord (blocks : List TextBlock) (position : Nat) : Option (Nat × Nat) :=
  positionToLocalCoordFrom blocks 0 position

/-- The caret position one move of kind `op` leads to from `(row, column)`:
start and end of the whole text, start and end of the line, and left and right
by one character with wrapping to the previous and next line.  Up and down
move by one line and clamp the column to the length of the destination line.
The column that keeps the horizontal pixel position (up, down) and the word
boundaries (word left, next word) depend on glyph metrics and on character
classification, which the text model does not fix: `ext` supplies them. -/
def moveTarget (ext : MoveOperation → Nat → Nat → Nat × Nat) (blocks : List TextBlock)
    (op : MoveOperation) (row column : Nat) : Nat × Nat :=
  match op with
  | MoveOperation.Start => (0, 0)
  | MoveOperation.End => (blocks.length - 1, lineColumns blocks (blocks.length - 1))
  | MoveOperation.StartOfLine => (row, 0)
  | MoveOperation.EndOfLine => (row, lineColumns blocks row)
  | MoveOperation.Left =>
    if 0 < column then (row, column - 1)
    else if 0 < row then (row - 1, lineColumns blocks (row - 1))
    else (row, column)
  | MoveOperation.Right =>
    if column < lineColumns blocks row then (row, column + 1)
    else if row + 1 < blocks.length then (row + 1, 0)
    else (row, column)
  | MoveOperation.Up =>
    if 0 < row then (row - 1, min (ext op row column).2 (lineColumns blocks (row - 1)))
    else (row, column)
  | MoveOperation.Down =>
    if row + 1 < blocks.length then
      (row + 1, min (ext op row column).2 (lineColumns blocks (row + 1)))
    else (row, column)
  | MoveOperation.WordLeft => ext op row column
  | MoveOperation.NextWord => ext op row column

/-- One move of the caret: the caret goes to the target of the operation, and
"`mode = KeepAnchor` leaves the selection anchor untouched (extends
selection); `mode = MoveAnchor` collapses the anchor to the new caret
position". -/
def moveOnce (ext : MoveOperation → Nat → Nat → Nat × Nat) (blocks : List TextBlock)
    (op : MoveOperation) (mode : MoveMode) (c : TextCursor) : TextCursor :=
  let moved : TextCursor :=
    { c with _row := (moveTarget ext blocks op c._row c._column).1,
             _column := (moveTarget ext blocks op c._row c._column).2 }
  match mode with
  | MoveMode.MoveAnchor => moved.clearSelection
  | MoveMode.KeepAnchor => moved

/-- Modelled from the spec: `TextCursor::movePosition(op, mode, count)`, whose
body is in `textbase.cpp`: "moves the caret according to a semantic operation
..., repeated `count` times" and "returns whether the position actually
changed".  The result is `(returned flag, this afterwards)`. -/
def movePosition (ext : MoveOperation → Nat → Nat → Nat × Nat) (blocks : List TextBlock)
    (c : TextCursor) (op : MoveOperation) (mode : MoveMode) (count : Nat) :
    Bool × TextCursor :=
  (decide ((((moveOnce ext blocks op mode)^[count] c)._row,
      ((moveOnce ext blocks op mode)^[count] c)._column) ≠ (c._row, c._column)),
    (moveOnce ext blocks op mode)^[count] c)

/-- Member `void moveCursorToEnd() { movePosition(TextCursor::MoveOperation::End); }`,
with the default arguments `MoveAnchor` and `1` of the declaration. -/
def moveCursorToEnd (ext : MoveOperation → Nat → Nat → Nat × Nat) (blocks : List TextBlock)
    (c : TextCursor) : TextCursor :=
  (movePosition ext blocks c MoveOperation.End MoveMode.MoveAnchor 1).2

/-- Member `void moveCursorToStart() { movePosition(TextCursor::MoveOperation::Start); }`,
with the default arguments `MoveAnchor` and `1` of the declaration. -/
def moveCursorToStart (ext : MoveOperation → Nat → Nat → Nat × Nat) (blocks : List TextBlock)
    (c : TextCursor) : TextCursor :=
  (movePosition ext blocks c MoveOperation.Start MoveMode.MoveAnchor 1).2

end TextCursor

/-! ### Frames (`src/engraving/dom/box.cpp`)

`box.cpp` holds the member functions of `Box`, `HBox`, `VBox`, `FBox` and
`TBox`.  The class declarations (`box.h`), the element base classes and the
enums they use are in headers outside the translated sources; what `box.cpp`
shows of them (member names, enumerators, calls) is what the structures below
contain.  Calls into the score are recorded as a list of effects. -/

/-- Modelled from the spec: the enum `ElementType` is declared in `types.h`,
outside the translated sources.  The enumerators are those `box.cpp` names (and
`FRET_DIAGRAM`, which `isFretDiagram()` tests); `other n` stands for every
further one. -/
inductive ElementType
  | LAYOUT_BREAK | TEXT | STAFF_TEXT | IMAGE | SYMBOL | ACTION_ICON | BAR_LINE
  | HBOX | VBOX | TBOX | FBOX | MEASURE | FRET_DIAGRAM
  | other (n : Nat)
  deriving DecidableEq, Repr

/-- Modelled from the spec: the enum `ActionIconType` is declared in
`actionicon.h`, outside the translated sources.  The enumerators are those
`box.cpp` names; `other n` stands for every further one. -/
inductive ActionIconType
  | VFRAME | TFRAME | FFRAME | HFRAME | MEASURE
  | other (n : Nat)
  deriving DecidableEq, Repr

/-- Modelled from the spec: the enum `TextStyleType`, declared outside the
translated sources; `textbase.h` names `DEFAULT` and `box.cpp` names `FRAME`. -/
inductive TextStyleType
  | DEFAULT | FRAME
  | other (n : Nat)
  deriving DecidableEq, Repr

/-- Modelled from the spec: the enum `Pid` of property identifiers, declared in
`property.h`, outside the translated sources.  The enumerators are those
`box.cpp` names; `other n` stands for every further one. -/
inductive Pid
  | BOX_HEIGHT | BOX_WIDTH | TOP_GAP | BOTTOM_GAP
  | LEFT_MARGIN | RIGHT_MARGIN | TOP_MARGIN | BOTTOM_MARGIN
  | BOX_AUTOSIZE | CREATE_SYSTEM_HEADER | TEXT
  | other (n : Nat)
  deriving DecidableEq, Repr

/-- Modelled from the spec: the variant type `PropertyValue`, declared in
`property.h`, outside the translated sources: a tagged value.  The tags are the
types `box.cpp` stores and reads: `bool`, `double`, `Spatium` and
`Millimetre`. -/
inductive PropertyValue
  | undefined
  | bool (b : Bool)
  | real (d : ℚ)
  | spatium (s : ℚ)
  | millimetre (m : ℚ)
  deriving DecidableEq

namespace PropertyValue

/-- Modelled from the spec: the accessor `value<Spatium>()` of `PropertyValue`:
the stored spatium value.  What the library does for a value of another type is
not visible in the sources; the model returns `0` there and nothing below is
stated for that case. -/
def valueSpatium : PropertyValue → ℚ
  | spatium s => s
  | _ => 0

/-- Modelled from the spec: the accessor `value<Millimetre>()` of
`PropertyValue`, as `valueSpatium`. -/
def valueMillimetre : PropertyValue → ℚ
  | millimetre m => m
  | _ => 0

/-- Modelled from the spec: the accessor `toDouble()` of `PropertyValue`, as
`valueSpatium`. -/
def toDouble : PropertyValue → ℚ
  | real d => d
  | _ => 0

/-- Modelled from the spec: the accessor `toBool()` of `PropertyValue`, as
`valueSpatium` with `false` for a value of another type. -/
def toBool : PropertyValue → Bool
  | bool b => b
  | _ => false

end PropertyValue

/-- Modelled from the spec: what `box.cpp` reads and writes of an
`EngravingItem` and of its subclasses `LayoutBreak`, `ActionIcon`, `StaffText`
and `Text` (all declared outside the translated sources): the element type, the
flag `ON_STAFF`, the three kind tests of a layout break, the action type of an
action icon, the markup text of a text, the parent (the identity of the
parent element), the track (`none` is `mu::nidx`), the text style and the
layout-to-parent-width switch of a text. -/
structure EngravingItem where
  type : ElementType
  onStaff : Bool := false
  isPageBreak : Bool := false
  isLineBreak : Bool := false
  isSectionBreak : Bool := false
  actionType : ActionIconType := ActionIconType.other 0
  xmlText : List Char := []
  parent : Option Nat := none
  track : Option Nat := some 0
  textStyleType : TextStyleType := TextStyleType.DEFAULT
  layoutToParentWidth : Bool := false
  deriving DecidableEq

namespace EngravingItem

/-- The call `e->setParent(p)`. -/
def setParent (e : EngravingItem) (p : Nat) : EngravingItem := { e with parent := some p }
/-- The call `e->setTrack(t)`; `none` is `mu::nidx`. -/
def setTrack (e : EngravingItem) (t : Option Nat) : EngravingItem := { e with track := t }
/-- The test `e->isFretDiagram()`. -/
def isFretDiagram (e : EngravingItem) : Bool := e.type = ElementType.FRET_DIAGRAM
/-- The test `e->isText()`. -/
def isText (e : EngravingItem) : Bool := e.type = ElementType.TEXT

end EngravingItem

/-- A call that `box.cpp` makes into the score or on an element and that
changes state outside the box: `score()->undoAddElement(e)`,
`score()->undoChangeElement(old, new)`, `score()->insertMeasure(type, box)`,
`delete e`, `e->added()`, `score()->addRefresh(...)` and `triggerLayout()`. -/
inductive Effect
  | undoAddElement (e : EngravingItem)
  | undoChangeElement (old new : EngravingItem)
  | insertMeasure (type : ElementType) (before : Nat)
  | deleted (e : EngravingItem)
  | added (e : EngravingItem)
  | addRefresh
  | triggerLayout
  deriving DecidableEq

namespace Effect

/-- The effect adds an element to the score. -/
def isAdd : Effect → Bool
  | undoAddElement _ => true
  | _ => false

/-- The effect replaces an element of the score. -/
def isReplace : Effect → Bool
  | undoChangeElement _ _ => true
  | _ => false

/-- The effect inserts a measure or frame into the score. -/
def isInsertMeasure : Effect → Bool
  | insertMeasure _ _ => true
  | _ => false

end Effect

/-- Modelled from the spec: the state of a `Box` that `box.cpp` reads and
writes.  The class is declared in `box.h` and its bases `MeasureBase` and
`EngravingItem` in further headers, all outside the translated sources.  `self`
is the identity of the box (the pointer `this`), `type` its element type,
`m_el` the element list `el()`, the three break flags are those of
`MeasureBase`, `offset` and `width` are the offset and the laid-out width of
the element, and the `m_` fields are the members `box.cpp` names. -/
structure Box where
  self : Nat := 0
  type : ElementType := ElementType.VBOX
  m_el : List EngravingItem := []
  pageBreak : Bool := false
  lineBreak : Bool := false
  sectionBreak : Bool := false
  offset : PointF := {}
  width : ℚ := 0
  m_boxWidth : ℚ := 0
  m_boxHeight : ℚ := 0
  m_topGap : ℚ := 0
  m_bottomGap : ℚ := 0
  m_leftMargin : ℚ := 0
  m_rightMargin : ℚ := 0
  m_topMargin : ℚ := 0
  m_bottomMargin : ℚ := 0
  m_isAutoSizeEnabled : Bool := true
  deriving DecidableEq

namespace Box

/-- The test `isHBox()`. -/
def isHBox (b : Box) : Bool := b.type = ElementType.HBOX
/-- The element list `el()`. -/
def el (b : Box) : List EngravingItem := b.m_el

/-- The function `Box::acceptDrop(EditData& data)` of `box.cpp`, with
`data.dropElement` as `e`.  The debug log line has no effect on state and is
left out. -/
def acceptDrop (b : Box) (e : EngravingItem) : Bool :=
  if e.onStaff then false
  else
    match e.type with
    | ElementType.LAYOUT_BREAK => true
    | ElementType.TEXT => true
    | ElementType.STAFF_TEXT => true
    | ElementType.IMAGE => true
    | ElementType.SYMBOL => true
    | ElementType.ACTION_ICON =>
      match e.actionType with
      | ActionIconType.VFRAME => true
      | ActionIconType.TFRAME => true
      | ActionIconType.FFRAME => true
      | ActionIconType.HFRAME => true
      | ActionIconType.MEASURE => true
      | _ => false
    | ElementType.BAR_LINE => b.isHBox
    | _ => false

/-- Modelled from the spec: `Factory::createText(this, TextStyleType::FRAME)`,
defined outside the translated sources: a new text element in the frame text
style with the box as parent. -/
def createFrameText (b : Box) : EngravingItem :=
  { type := ElementType.TEXT, parent := some b.self, textStyleType := TextStyleType.FRAME }

/-- The function `Box::drop(EditData& data)` of `box.cpp`, with
`data.dropElement` as `e`.  The result is the returned element (`none` is the
null pointer) and the calls made into the score, in order.  The debug log line
has no effect on state and is left out. -/
def drop (b : Box) (e : EngravingItem) : Option EngravingItem × List Effect :=
  if e.onStaff then (none, [])
  else
    match e.type with
    | ElementType.LAYOUT_BREAK =>
      if b.pageBreak || b.lineBreak then
        if (e.isPageBreak && b.pageBreak) || (e.isLineBreak && b.lineBreak)
            || (e.isSectionBreak && b.sectionBreak) then
          (none, [Effect.deleted e])
        else
          match b.el.find? (fun elem => elem.type = ElementType.LAYOUT_BREAK) with
          | some elem => (none, [Effect.undoChangeElement elem e])
          | none => (none, [])
      else
        (some ((e.setTrack none).setParent b.self),
          [Effect.undoAddElement ((e.setTrack none).setParent b.self)])
    | ElementType.STAFF_TEXT =>
      (some { (b.createFrameText.setParent b.self) with xmlText := e.xmlText },
        [Effect.undoAddElement { (b.createFrameText.setParent b.self) with xmlText := e.xmlText },
         Effect.deleted e])
    | ElementType.ACTION_ICON =>
      match e.actionType with
      | ActionIconType.VFRAME => (none, [Effect.insertMeasure ElementType.VBOX b.self])
      | ActionIconType.TFRAME => (none, [Effect.insertMeasure ElementType.TBOX b.self])
      | ActionIconType.FFRAME => (none, [Effect.insertMeasure ElementType.FBOX b.self])
      | ActionIconType.HFRAME => (none, [Effect.insertMeasure ElementType.HBOX b.self])
      | ActionIconType.MEASURE => (none, [Effect.insertMeasure ElementType.MEASURE b.self])
      | _ => (none, [])
    | ElementType.TEXT => (some (e.setParent b.self), [Effect.undoAddElement (e.setParent b.self)])
    | ElementType.IMAGE => (some (e.setParent b.self), [Effect.undoAddElement (e.setParent b.self)])
    | ElementType.SYMBOL => (some (e.setParent b.self), [Effect.undoAddElement (e.setParent b.self)])
    | _ => (none, [])

/-- The kind of the dropped layout break is already set on the box: it is a
page break and the box has a page break, or a line break and the box has a line
break, or a section break and the box has a section break. -/
def kindAlreadySet (b : Box) (e : EngravingItem) : Bool :=
  (e.isPageBreak && b.pageBreak) || (e.isLineBreak && b.lineBreak)
    || (e.isSectionBreak && b.sectionBreak)

/-- The function `Box::getProperty(Pid propertyId)` of `box.cpp`.
`mscVersion` is `score()->mscVersion()`, and `measureBaseGet` is
`MeasureBase::getProperty` on this box, defined outside the translated sources. -/
def getProperty (mscVersion : Int) (measureBaseGet : Pid → PropertyValue) (b : Box)
    (propertyId : Pid) : PropertyValue :=
  match propertyId with
  | Pid.BOX_HEIGHT => PropertyValue.spatium b.m_boxHeight
  | Pid.BOX_WIDTH => PropertyValue.spatium b.m_boxWidth
  | Pid.TOP_GAP => PropertyValue.millimetre b.m_topGap
  | Pid.BOTTOM_GAP => PropertyValue.millimetre b.m_bottomGap
  | Pid.LEFT_MARGIN => PropertyValue.real b.m_leftMargin
  | Pid.RIGHT_MARGIN => PropertyValue.real b.m_rightMargin
  | Pid.TOP_MARGIN => PropertyValue.real b.m_topMargin
  | Pid.BOTTOM_MARGIN => PropertyValue.real b.m_bottomMargin
  | Pid.BOX_AUTOSIZE =>
    PropertyValue.bool (if mscVersion ≥ 302 then b.m_isAutoSizeEnabled else false)
  | _ => measureBaseGet propertyId

/-- The function `Box::setProperty(Pid propertyId, const PropertyValue& v)` of
`box.cpp`.  `measureBaseSet` is `MeasureBase::setProperty` on this box, defined
outside the translated sources.  The result is the returned flag, the box
afterwards and the calls made into the score, in order. -/
def setProperty (measureBaseSet : Box → Pid → PropertyValue → Bool × Box) (b : Box)
    (propertyId : Pid) (v : PropertyValue) : Bool × Box × List Effect :=
  match propertyId with
  | Pid.BOX_HEIGHT =>
    (true, { b with m_boxHeight := v.valueSpatium }, [Effect.addRefresh, Effect.triggerLayout])
  | Pid.BOX_WIDTH =>
    (true, { b with m_boxWidth := v.valueSpatium }, [Effect.addRefresh, Effect.triggerLayout])
  | Pid.TOP_GAP =>
    (true, { b with m_topGap := v.valueMillimetre }, [Effect.addRefresh, Effect.triggerLayout])
  | Pid.BOTTOM_GAP =>
    (true, { b with m_bottomGap := v.valueMillimetre },
      [Effect.addRefresh, Effect.triggerLayout])
  | Pid.LEFT_MARGIN =>
    (true, { b with m_leftMargin := v.toDouble }, [Effect.addRefresh, Effect.triggerLayout])
  | Pid.RIGHT_MARGIN =>
    (true, { b with m_rightMargin := v.toDouble }, [Effect.addRefresh, Effect.triggerLayout])
  | Pid.TOP_MARGIN =>
    (true, { b with m_topMargin := v.toDouble }, [Effect.addRefresh, Effect.triggerLayout])
  | Pid.BOTTOM_MARGIN =>
    (true, { b with m_bottomMargin := v.toDouble }, [Effect.addRefresh, Effect.triggerLayout])
  | Pid.BOX_AUTOSIZE =>
    (true, { b with m_isAutoSizeEnabled := v.toBool }, [Effect.addRefresh, Effect.triggerLayout])
  | _ =>
    ((measureBaseSet b propertyId v).1, (measureBaseSet b propertyId v).2, [Effect.addRefresh])

/-- The properties that `Box::getProperty` answers itself. -/
def boxProperties : List Pid :=
  [Pid.BOX_HEIGHT, Pid.BOX_WIDTH, Pid.TOP_GAP, Pid.BOTTOM_GAP, Pid.LEFT_MARGIN,
   Pid.RIGHT_MARGIN, Pid.TOP_MARGIN, Pid.BOTTOM_MARGIN, Pid.BOX_AUTOSIZE]

/-- The eight size, gap and margin properties of a box. -/
def sizeProperties : List Pid :=
  [Pid.BOX_HEIGHT, Pid.BOX_WIDTH, Pid.TOP_GAP, Pid.BOTTOM_GAP, Pid.LEFT_MARGIN,
   Pid.RIGHT_MARGIN, Pid.TOP_MARGIN, Pid.BOTTOM_MARGIN]

/-- The value has the type of the property: `Spatium` for the box height and
width, `Millimetre` for the two gaps, `double` for the four margins. -/
def hasTypeOf (v : PropertyValue) : Pid → Bool
  | Pid.BOX_HEIGHT => match v with | PropertyValue.spatium _ => true | _ => false
  | Pid.BOX_WIDTH => match v with | PropertyValue.spatium _ => true | _ => false
  | Pid.TOP_GAP => match v with | PropertyValue.millimetre _ => true | _ => false
  | Pid.BOTTOM_GAP => match v with | PropertyValue.millimetre _ => true | _ => false
  | Pid.LEFT_MARGIN => match v with | PropertyValue.real _ => true | _ => false
  | Pid.RIGHT_MARGIN => match v with | PropertyValue.real _ => true | _ => false
  | Pid.TOP_MARGIN => match v with | PropertyValue.real _ => true | _ => false
  | Pid.BOTTOM_MARGIN => match v with | PropertyValue.real _ => true | _ => false
  | _ => false

end Box

/-- What `HBox::drag` reads of the parent element: its type, its laid-out width
and, when it is a `VBox`, its left and right margin. -/
structure DragParent where
  type : ElementType
  width : ℚ := 0
  leftMargin : ℚ := 0
  rightMargin : ℚ := 0
  deriving DecidableEq

namespace HBox

/-- The horizontal offset before clamping in `HBox::drag`:
`offset().x() + data.evtDelta.x()`. -/
def dragX1 (b : Box) (evtDelta : PointF) : ℚ := b.offset.x + evtDelta.x

/-- The upper bound in `HBox::drag`:
`parentItem()->width() - width() - (vb->leftMargin() + vb->rightMargin()) * DPMM`. -/
def dragX2 (DPMM : ℚ) (parent : DragParent) (b : Box) : ℚ :=
  parent.width - b.width - (parent.leftMargin + parent.rightMargin) * DPMM

/-- The function `HBox::drag(EditData& data)` of `box.cpp`, as the box after
the call.  `DPMM` is the constant of that name, defined outside the translated
sources; `parent` is the parent element (`explicitParent()` and
`parentItem()`).  The returned rectangle, the union of the canvas bounding
rectangles before and after, depends on layout data outside the sources and is
not part of the model. -/
def drag (DPMM : ℚ) (parent : DragParent) (b : Box) (evtDelta : PointF) : Box :=
  { b with offset :=
      { x := if parent.type = ElementType.VBOX then
               if dragX1 b evtDelta < 0 then 0
               else if dragX1 b evtDelta > dragX2 DPMM parent b then dragX2 DPMM parent b
               else dragX1 b evtDelta
             else dragX1 b evtDelta,
        y := 0 } }

end HBox

namespace FBox

/-- The function `FBox::add(EngravingItem* e)` of `box.cpp`.  The result is the
box afterwards, the element afterwards and the calls made on the element.  The
log line for an element that is not allowed has no effect on state and is left
out. -/
def add (b : Box) (e : EngravingItem) : Box × EngravingItem × List Effect :=
  if (e.setParent b.self).isFretDiagram then
    ({ b with m_el := b.m_el ++ [e.setParent b.self] }, e.setParent b.self,
      [Effect.added (e.setParent b.self)])
  else (b, e.setParent b.self, [])

end FBox

/-- The parameters of `isTextNavigationKey` that are defined outside the
translated sources: the key codes `Key_Space` and `Key_Tab` and the modifier set
`TextEditingControlModifier`. -/
structure KeyCodes where
  Key_Space : Int
  Key_Tab : Int
  TextEditingControlModifier : Nat
  deriving DecidableEq

/-- The function `isTextNavigationKey(int key, KeyboardModifiers modifiers)` of
`textbase.h`:
`(key == Key_Space && modifiers != TextEditingControlModifier) || key == Key_Tab`. -/
def isTextNavigationKey (k : KeyCodes) (key : Int) (modifiers : Nat) : Bool :=
  (key == k.Key_Space && modifiers != k.TextEditingControlModifier) || key == k.Key_Tab

/-! ### Sample values -/

/-- A bold format: the default format after `setBold(true)`. -/
def sampleBold : CharFormat := ({} : CharFormat).setBold true

/-- A bold and underlined format with otherwise default attributes. -/
def sampleBoldUnderline : CharFormat := { _style := ⟨5⟩ }

/-- A caret in row 0 at the given column with the given live format. -/
def sampleCaret (column : Nat) (fmt : CharFormat) : TextCursor :=
  { _format := fmt, _column := column }

/-- The fragment "hello" in the default format. -/
def sampleFragment : TextFragment := { text := "hello".toList }

/-- The line "hello": one fragment in the default format. -/
def sampleLine : TextBlock := { _fragments := [sampleFragment] }

/-- The line "a": one bold fragment holding one character. -/
def sampleSingle : TextBlock := { _fragments := [{ format := sampleBold, text := ['a'] }] }

/-- Two editing calls on "hello": insert bold "XY" at column 2, then remove
the character at column 2. -/
def sampleEdits : List TextBlock.Edit :=
  [TextBlock.Edit.insert (sampleCaret 2 sampleBold) "XY".toList,
   TextBlock.Edit.remove 2 (sampleCaret 2 {})]

/-- The line "heYllo" with a bold "Y", which `sampleEdits` makes of "hello". -/
def sampleEdited : TextBlock :=
  { _fragments := [{ text := "he".toList }, { format := sampleBold, text := "Y".toList },
      { text := "llo".toList }] }

/-- A text of three lines: "hello", an empty line, and "ab" followed by a bold
"c". -/
def sampleText : List TextBlock :=
  [sampleLine, { _fragments := [{ text := [] }] },
   { _fragments := [{ text := "ab".toList }, { format := sampleBold, text := "c".toList }] }]

/-- A supplier of the geometry- and classification-dependent move targets that
leaves the caret where it is. -/
def sampleExt : TextCursor.MoveOperation → Nat → Nat → Nat × Nat := fun _ r c => (r, c)

/-- A sample assignment of the key codes and of the text-editing control
modifier. -/
def sampleKeys : KeyCodes :=
  { Key_Space := 32, Key_Tab := 16777217, TextEditingControlModifier := 67108864 }

/-- A frame whose only break flag is the section break, holding the section
break element that set it. -/
def sampleSectionBox : Box :=
  { self := 7, type := ElementType.HBOX, sectionBreak := true,
    m_el := [{ type := ElementType.LAYOUT_BREAK, isSectionBreak := true, parent := some 7 }] }

/-- A section break taken from the palette, not flagged `ON_STAFF`. -/
def sampleSectionBreak : EngravingItem :=
  { type := ElementType.LAYOUT_BREAK, isSectionBreak := true }

/-- A bar line taken from the palette. -/
def sampleBarLine : EngravingItem := { type := ElementType.BAR_LINE }

/-- A vertical frame with identity 3 and no elements. -/
def sampleVBox : Box := { self := 3, type := ElementType.VBOX, lineBreak := true }

/-- A fret diagram box with identity 4 that holds one fret diagram. -/
def sampleFBox : Box :=
  { self := 4, type := ElementType.FBOX,
    m_el := [{ type := ElementType.FRET_DIAGRAM, parent := some 4 }] }

/-- A horizontal frame of width 20 at horizontal offset 5. -/
def sampleHBox : Box := { self := 5, type := ElementType.HBOX, width := 20, offset := { x := 5 } }

/-- A vertical frame as drag parent: width 100, margins 2 and 3. -/
def sampleDragParent : DragParent :=
  { type := ElementType.VBOX, width := 100, leftMargin := 2, rightMargin := 3 }

/-- A `MeasureBase::getProperty` that answers nothing. -/
def sampleBaseGet : Pid → PropertyValue := fun _ => PropertyValue.undefined

/-- A `MeasureBase::setProperty` that accepts nothing and leaves the box. -/
def sampleBaseSet : Box → Pid → PropertyValue → Bool × Box := fun b _ _ => (false, b)

/-! ## Theorems -/

/-- C3: `hasSelection()` is true exactly when the caret `(row, column)` differs
from the anchor `(selectLine, selectColumn)` as a pair, and false exactly when
both components coincide. -/
theorem TextCursor.hasSelection_iff (c : TextCursor) :
    (c.hasSelection = true ↔ (c.row, c.column) ≠ (c.selectLine, c.selectColumn))
      ∧ (c.hasSelection = false ↔ c.row = c.selectLine ∧ c.column = c.selectColumn) := by
  simp only [hasSelection, row, column, selectLine, selectColumn, ne_eq, Prod.mk.injEq,
    Bool.or_eq_true, bne_iff_ne, Bool.or_eq_false_iff, bne_eq_false_iff_eq]
  constructor
  · constructor
    · rintro (h | h) ⟨h1, h2⟩
      · exact h h1.symm
      · exact h h2.symm
    · intro h
      by_cases h1 : c._selectLine = c._row
      · right
        intro h2
        exact h ⟨h1.symm, h2.symm⟩
      · exact Or.inl h1
  · constructor
    · rintro ⟨h1, h2⟩
      exact ⟨h1.symm, h2.symm⟩
    · rintro ⟨h1, h2⟩
      exact ⟨h1.symm, h2.symm⟩

/-- After a sequence of `setValign` calls the alignment is the argument of the
last call, or the one the format had when there was no call. -/
theorem CharFormat.valign_setValigns (f : CharFormat) (vals : List VerticalAlignment) :
    (f.setValigns vals).valign = vals.getLast?.getD f.valign := by
  induction vals generalizing f with
  | nil => rfl
  | cons v vs ih =>
    have step : (f.setValigns (v :: vs)) = (f.setValign v).setValigns vs := rfl
    rw [step, ih]
    cases vs with
    | nil => rfl
    | cons w ws => simp [List.getLast?_cons_cons, List.getLast?_eq_getLast _ (List.cons_ne_nil w ws)]

/-- C9 (as stated, refuted): `setValign` accepts the fourth enumerator
`AlignUndefined`, and after `setValign(AlignUndefined)` on a default-constructed
format `valign()` is `AlignUndefined`, which is none of normal, superscript and
subscript. -/
theorem CharFormat.valign_undefined_reachable :
    (({} : CharFormat).setValigns [VerticalAlignment.AlignUndefined]).valign
        = VerticalAlignment.AlignUndefined
      ∧ ¬ CharFormat.valignListed
          (({} : CharFormat).setValigns [VerticalAlignment.AlignUndefined]).valign := by
  constructor
  · rfl
  · decide

/-- C9 (amended): a format holds exactly one alignment, the argument of the
last `setValign` call (the alignment it had before when there was no call); so
starting from a format whose alignment is normal, superscript or subscript,
after any sequence of `setValign` calls whose arguments are among these three
`valign()` is again one of the three. -/
theorem CharFormat.valign_listed_of_listed_args (f : CharFormat)
    (vals : List VerticalAlignment) (hf : CharFormat.valignListed f.valign)
    (hv : ∀ v ∈ vals, CharFormat.valignListed v) :
    (f.setValigns vals).valign = vals.getLast?.getD f.valign
      ∧ CharFormat.valignListed (f.setValigns vals).valign := by
  refine ⟨CharFormat.valign_setValigns f vals, ?_⟩
  rw [CharFormat.valign_setValigns]
  cases h : vals.getLast? with
  | none => simpa using hf
  | some w =>
    have hw : w ∈ vals := List.mem_of_getLast?_eq_some h
    simpa using hv w hw

/-- Witness for C9 (amended): from the default format, superscript then
subscript leaves subscript. -/
theorem CharFormat.valign_listed_of_listed_args_witness :
    (({} : CharFormat).setValigns
        [VerticalAlignment.AlignSuperScript, VerticalAlignment.AlignSubScript]).valign
        = [VerticalAlignment.AlignSuperScript,
            VerticalAlignment.AlignSubScript].getLast?.getD ({} : CharFormat).valign
      ∧ CharFormat.valignListed
          (({} : CharFormat).setValigns
            [VerticalAlignment.AlignSuperScript, VerticalAlignment.AlignSubScript]).valign :=
  CharFormat.valign_listed_of_listed_args {}
    [VerticalAlignment.AlignSuperScript, VerticalAlignment.AlignSubScript]
    (by decide) (by decide)

/-- On a defined style, updating one of the four flags sets that flag to the
given value, keeps the other three, and is idempotent. -/
theorem FontStyle.flag_update {s : FontStyle} (h : s.defined) (v : Bool) :
    (((s.setFlag Bold v).has Bold = v ∧ (s.setFlag Bold v).has Italic = s.has Italic
        ∧ (s.setFlag Bold v).has Underline = s.has Underline
        ∧ (s.setFlag Bold v).has Strike = s.has Strike
        ∧ (s.setFlag Bold v).setFlag Bold v = s.setFlag Bold v)
    ∧ ((s.setFlag Italic v).has Italic = v ∧ (s.setFlag Italic v).has Bold = s.has Bold
        ∧ (s.setFlag Italic v).has Underline = s.has Underline
        ∧ (s.setFlag Italic v).has Strike = s.has Strike
        ∧ (s.setFlag Italic v).setFlag Italic v = s.setFlag Italic v)
    ∧ ((s.setFlag Underline v).has Underline = v ∧ (s.setFlag Underline v).has Bold = s.has Bold
        ∧ (s.setFlag Underline v).has Italic = s.has Italic
        ∧ (s.setFlag Underline v).has Strike = s.has Strike
        ∧ (s.setFlag Underline v).setFlag Underline v = s.setFlag Underline v)
    ∧ ((s.setFlag Strike v).has Strike = v ∧ (s.setFlag Strike v).has Bold = s.has Bold
        ∧ (s.setFlag Strike v).has Italic = s.has Italic
        ∧ (s.setFlag Strike v).has Underline = s.has Underline
        ∧ (s.setFlag Strike v).setFlag Strike v = s.setFlag Strike v)) := by
  obtain ⟨n⟩ := s
  have hn : n < 16 := h
  interval_cases n <;> cases v <;> decide

/-- C10: the four style flags are independent bits.  For a format with a
defined style and a boolean `v`, `setBold v` makes `bold()` return `v` and
leaves `italic()`, `underline()`, `strike()`, `valign()`, `fontSize()` and
`fontFamily()` as they were, and likewise for `setItalic`, `setUnderline` and
`setStrike` with their own getters; applying a setter twice with the same
value is the same as applying it once. -/
theorem CharFormat.style_setters_independent (f : CharFormat) (v : Bool)
    (h : f.style.defined) :
    ((f.setBold v).bold = v ∧ (f.setBold v).italic = f.italic
        ∧ (f.setBold v).underline = f.underline ∧ (f.setBold v).strike = f.strike
        ∧ (f.setBold v).valign = f.valign ∧ (f.setBold v).fontSize = f.fontSize
        ∧ (f.setBold v).fontFamily = f.fontFamily
        ∧ (f.setBold v).setBold v = f.setBold v)
    ∧ ((f.setItalic v).italic = v ∧ (f.setItalic v).bold = f.bold
        ∧ (f.setItalic v).underline = f.underline ∧ (f.setItalic v).strike = f.strike
        ∧ (f.setItalic v).valign = f.valign ∧ (f.setItalic v).fontSize = f.fontSize
        ∧ (f.setItalic v).fontFamily = f.fontFamily
        ∧ (f.setItalic v).setItalic v = f.setItalic v)
    ∧ ((f.setUnderline v).underline = v ∧ (f.setUnderline v).bold = f.bold
        ∧ (f.setUnderline v).italic = f.italic ∧ (f.setUnderline v).strike = f.strike
        ∧ (f.setUnderline v).valign = f.valign ∧ (f.setUnderline v).fontSize = f.fontSize
        ∧ (f.setUnderline v).fontFamily = f.fontFamily
        ∧ (f.setUnderline v).setUnderline v = f.setUnderline v)
    ∧ ((f.setStrike v).strike = v ∧ (f.setStrike v).bold = f.bold
        ∧ (f.setStrike v).italic = f.italic ∧ (f.setStrike v).underline = f.underline
        ∧ (f.setStrike v).valign = f.valign ∧ (f.setStrike v).fontSize = f.fontSize
        ∧ (f.setStrike v).fontFamily = f.fontFamily
        ∧ (f.setStrike v).setStrike v = f.setStrike v) := by
  obtain ⟨s, va, fs, ff⟩ := f
  have hs : s.defined := h
  have k := FontStyle.flag_update hs v
  simp only [setBold, setItalic, setUnderline, setStrike, bold, italic, underline, strike,
    valign, fontSize, fontFamily, FontStyle.setFlag] at k ⊢
  obtain ⟨⟨b1, b2, b3, b4, b5⟩, ⟨i1, i2, i3, i4, i5⟩, ⟨u1, u2, u3, u4, u5⟩,
    ⟨s1, s2, s3, s4, s5⟩⟩ := k
  refine ⟨⟨b1, b2, b3, b4, trivial, trivial, trivial, ?_⟩,
    ⟨i1, i2, i3, i4, trivial, trivial, trivial, ?_⟩,
    ⟨u1, u2, u3, u4, trivial, trivial, trivial, ?_⟩,
    ⟨s1, s2, s3, s4, trivial, trivial, trivial, ?_⟩⟩
  · rw [b5]
  · rw [i5]
  · rw [u5]
  · rw [s5]

/-- Witness for C10 at the bold and underlined format: clearing bold keeps
underline, and setting italic keeps bold. -/
theorem CharFormat.style_setters_independent_witness :
    sampleBoldUnderline.style.defined
      ∧ (sampleBoldUnderline.setBold false).bold = false
      ∧ (sampleBoldUnderline.setBold false).underline = sampleBoldUnderline.underline
      ∧ (sampleBoldUnderline.setItalic true).italic = true
      ∧ (sampleBoldUnderline.setItalic true).bold = sampleBoldUnderline.bold :=
  ⟨by decide,
    (CharFormat.style_setters_independent sampleBoldUnderline false (by decide)).1.1,
    (CharFormat.style_setters_independent sampleBoldUnderline false (by decide)).1.2.2.1,
    (CharFormat.style_setters_independent sampleBoldUnderline true (by decide)).2.1.1,
    (CharFormat.style_setters_independent sampleBoldUnderline true (by decide)).2.1.2.1⟩

/-! ### Fragments and blocks -/

namespace TextBlock

theorem foldl_columns (l : List TextFragment) (a : Nat) :
    l.foldl (fun col f => col + f.columns) a = a + (l.map TextFragment.columns).sum := by
  induction l generalizing a with
  | nil => simp
  | cons f fs ih => simp [List.foldl_cons, ih, Nat.add_assoc]

/-- The column count of a block is the sum of the column counts of its
fragments. -/
theorem columns_eq_sum (b : TextBlock) :
    b.columns = (b._fragments.map TextFragment.columns).sum := by
  simp [columns, foldl_columns]

/-- The column count of a block is the length of its plain text. -/
theorem length_plainText (b : TextBlock) : b.plainText.length = b.columns := by
  rw [columns_eq_sum]
  unfold plainText
  induction b._fragments with
  | nil => rfl
  | cons f fs ih => simp [fragmentsText, ih, TextFragment.columns]

theorem formatsDiffer_iff (l : List TextFragment) :
    formatsDiffer l = true ↔ List.Chain' (fun f g : TextFragment => f.format ≠ g.format) l := by
  induction l with
  | nil => simp [formatsDiffer]
  | cons f fs ih =>
    cases fs with
    | nil => simp [formatsDiffer]
    | cons g gs =>
      simp only [formatsDiffer, Bool.and_eq_true, decide_eq_true_eq, List.chain'_cons, ih]

/-- The merging pass starts its result with the run being grown and leaves no
two consecutive fragments with the same format. -/
theorem mergeFrom_spec (cur : TextFragment) (l : List TextFragment) :
    (∃ t rest, mergeFrom cur l = { cur with text := t } :: rest)
      ∧ List.Chain' (fun f g : TextFragment => f.format ≠ g.format) (mergeFrom cur l) := by
  induction l generalizing cur with
  | nil => exact ⟨⟨cur.text, [], rfl⟩, List.chain'_singleton _⟩
  | cons g gs ih =>
    by_cases h : g.format = cur.format
    · simp only [mergeFrom, h, if_true]
      obtain ⟨⟨t, rest, e⟩, c⟩ := ih { cur with text := cur.text ++ g.text }
      exact ⟨⟨t, rest, e⟩, c⟩
    · simp only [mergeFrom, h, if_false]
      obtain ⟨⟨t, rest, e⟩, c⟩ := ih g
      refine ⟨⟨cur.text, _, rfl⟩, ?_⟩
      rw [e] at c ⊢
      exact List.Chain'.cons (fun hh => h hh.symm) c

theorem mergeAdjacent_chain (l : List TextFragment) :
    List.Chain' (fun f g : TextFragment => f.format ≠ g.format) (mergeAdjacent l) := by
  cases l with
  | nil => exact List.chain'_nil
  | cons f fs => exact (mergeFrom_spec f fs).2

theorem mergeFrom_text_ne_nil (cur : TextFragment) (l : List TextFragment)
    (hc : cur.text ≠ []) (hl : ∀ g ∈ l, g.text ≠ []) :
    ∀ f ∈ mergeFrom cur l, f.text ≠ [] := by
  induction l generalizing cur with
  | nil =>
    intro f hf
    simp only [mergeFrom, List.mem_singleton] at hf
    subst hf
    exact hc
  | cons g gs ih =>
    have hg := hl g (List.mem_cons_self _ _)
    have hgs : ∀ x ∈ gs, x.text ≠ [] := fun x hx => hl x (List.mem_cons_of_mem _ hx)
    by_cases h : g.format = cur.format
    · simp only [mergeFrom, h, if_true]
      exact ih _ (by simp [hc]) hgs
    · simp only [mergeFrom, h, if_false]
      intro f hf
      rcases List.mem_cons.1 hf with rfl | hf
      · exact hc
      · exact ih g hg hgs f hf

/-- Simplification leaves no fragment with empty text. -/
theorem simplify_text_ne_nil (b : TextBlock) : ∀ f ∈ b.simplify._fragments, f.text ≠ [] := by
  have hfil : ∀ g ∈ b.removeEmptyFragment._fragments, g.text ≠ [] := by
    intro g hg
    simp only [removeEmptyFragment, List.mem_filter] at hg
    intro h
    simp [h] at hg
  simp only [simplify]
  cases hl : b.removeEmptyFragment._fragments with
  | nil => simp [mergeAdjacent]
  | cons f fs =>
    rw [hl] at hfil
    exact mergeFrom_text_ne_nil f fs (hfil f (List.mem_cons_self _ _))
      (fun x hx => hfil x (List.mem_cons_of_mem _ hx))

/-- Simplification leaves no two consecutive fragments with the same format. -/
theorem simplify_chain (b : TextBlock) :
    List.Chain' (fun f g : TextFragment => f.format ≠ g.format) b.simplify._fragments :=
  mergeAdjacent_chain _

/-- A simplified block, given the empty fragment when it needs one, satisfies
the invariant of the data model. -/
theorem wellFormed_normalized (b : TextBlock) (cursor : TextCursor) :
    (b.simplify.insertEmptyFragmentIfNeeded cursor).wellFormed := by
  unfold insertEmptyFragmentIfNeeded
  by_cases h : b.simplify._fragments = []
  · rw [if_pos h]
    refine ⟨by simp, by simp [formatsDiffer], ?_⟩
    intro f hf _
    simp only [List.mem_singleton] at hf
    rw [hf]
  · rw [if_neg h]
    refine ⟨h, (formatsDiffer_iff _).2 (simplify_chain b), ?_⟩
    intro f hf he
    exact absurd he (simplify_text_ne_nil b f hf)

/-- Every editing call leaves a block that satisfies the invariant. -/
theorem wellFormed_apply (b : TextBlock) (e : Edit) : (e.apply b).wellFormed := by
  cases e with
  | insert cursor s => exact wellFormed_normalized _ cursor
  | remove column cursor => exact wellFormed_normalized _ cursor
  | removeN start n cursor => exact wellFormed_normalized _ cursor

/-- A sequence of editing calls on a well-formed block leaves a well-formed
block. -/
theorem wellFormed_applyEdits (es : List Edit) (b0 b : TextBlock) (h0 : b0.wellFormed)
    (hrun : applyEdits b0 es = some b) : b.wellFormed := by
  induction es generalizing b0 with
  | nil =>
    simp only [applyEdits, Option.some.injEq] at hrun
    exact hrun ▸ h0
  | cons e es ih =>
    simp only [applyEdits] at hrun
    split at hrun
    · exact ih _ (wellFormed_apply b0 e) hrun
    · cases hrun

theorem fragmentsText_mergeFrom (cur : TextFragment) (l : List TextFragment) :
    fragmentsText (mergeFrom cur l) = cur.text ++ fragmentsText l := by
  induction l generalizing cur with
  | nil => simp [mergeFrom, fragmentsText]
  | cons g gs ih =>
    by_cases h : g.format = cur.format
    · simp [mergeFrom, h, ih, fragmentsText]
    · simp [mergeFrom, h, ih, fragmentsText]

theorem fragmentsText_mergeAdjacent (l : List TextFragment) :
    fragmentsText (mergeAdjacent l) = fragmentsText l := by
  cases l with
  | nil => rfl
  | cons f fs => simp [mergeAdjacent, fragmentsText_mergeFrom, fragmentsText]

theorem fragmentsText_filter (l : List TextFragment) :
    fragmentsText (l.filter (fun f => !f.text.isEmpty)) = fragmentsText l := by
  induction l with
  | nil => rfl
  | cons f fs ih =>
    by_cases h : f.text = []
    · simp [List.filter_cons, h, ih, fragmentsText]
    · have : f.text.isEmpty = false := by simpa [List.isEmpty_iff] using h
      simp [List.filter_cons, this, ih, fragmentsText]

/-- Simplification keeps the plain text of the line. -/
theorem plainText_simplify (b : TextBlock) : b.simplify.plainText = b.plainText := by
  simp [plainText, simplify, removeEmptyFragment, fragmentsText_mergeAdjacent,
    fragmentsText_filter]

theorem plainText_insertEmptyFragmentIfNeeded (b : TextBlock) (cursor : TextCursor) :
    (b.insertEmptyFragmentIfNeeded cursor).plainText = b.plainText := by
  unfold insertEmptyFragmentIfNeeded
  split
  · rename_i h
    simp [plainText, h, TextFragment.fromCursor, fragmentsText]
  · rfl

theorem eol_insertEmptyFragmentIfNeeded (b : TextBlock) (cursor : TextCursor) :
    (b.insertEmptyFragmentIfNeeded cursor).eol = b.eol := by
  unfold insertEmptyFragmentIfNeeded
  split <;> rfl

theorem fragmentsText_insertFragments (fmt : CharFormat) (s : List Char)
    (l : List TextFragment) (column : Nat) :
    fragmentsText (insertFragments fmt s l column)
      = (fragmentsText l).take column ++ s ++ (fragmentsText l).drop column := by
  induction l generalizing column with
  | nil => simp [insertFragments, fragmentsText]
  | cons f fs ih =>
    simp only [insertFragments, TextFragment.columns]
    by_cases h1 : column < f.text.length
    · have hlen : column ≤ f.text.length := Nat.le_of_lt h1
      rw [if_pos h1]
      simp only [fragmentsText, List.take_append_of_le_length hlen,
        List.drop_append_of_le_length hlen]
      by_cases h2 : f.format = fmt
      · simp [h2, fragmentsText]
      · by_cases h3 : column = 0
        · simp [h2, h3, fragmentsText]
        · simp [h2, h3, fragmentsText, TextFragment.split]
    · have hlen : f.text.length ≤ column := Nat.le_of_not_lt h1
      rw [if_neg h1]
      simp only [fragmentsText, ih, List.take_append_eq_append_take,
        List.drop_append_eq_append_drop, List.take_of_length_le hlen,
        List.drop_of_length_le hlen]
      simp

theorem removeChars_spec (l : List TextFragment) (start n : Nat) :
    (removeChars l start n).1 = ((fragmentsText l).drop start).take n
      ∧ fragmentsText (removeChars l start n).2
        = (fragmentsText l).take start ++ (fragmentsText l).drop (start + n) := by
  induction l generalizing start n with
  | nil => simp [removeChars, fragmentsText]
  | cons f fs ih =>
    simp only [removeChars, TextFragment.columns]
    by_cases h1 : start < f.text.length
    · have hlen : start ≤ f.text.length := Nat.le_of_lt h1
      rw [if_pos h1]
      obtain ⟨i1, i2⟩ := ih 0 (n - min n (f.text.length - start))
      simp only [fragmentsText, i1, i2, List.take_append_of_le_length hlen,
        List.drop_append_of_le_length hlen, List.drop_zero, List.take_zero, List.nil_append,
        Nat.zero_add]
      by_cases h2 : n ≤ f.text.length - start
      · have hk : min n (f.text.length - start) = n := Nat.min_eq_left h2
        have hle : n ≤ (f.text.drop start).length := by simpa using h2
        have hle2 : start + n ≤ f.text.length := by omega
        rw [hk, Nat.sub_self]
        simp [List.take_append_of_le_length hle, List.drop_append_of_le_length hle2]
      · have h2' : f.text.length - start ≤ n := by omega
        have hk : min n (f.text.length - start) = f.text.length - start := Nat.min_eq_right h2'
        have hge : (f.text.drop start).length ≤ n := by simpa using h2'
        have hge2 : f.text.length ≤ start + n := by omega
        have hge3 : f.text.length ≤ start + (f.text.length - start) := by omega
        have hsub : start + n - f.text.length = n - (f.text.length - start) := by omega
        rw [hk]
        simp [List.take_append_eq_append_take, List.take_of_length_le hge,
          List.drop_append_eq_append_drop, List.drop_of_length_le hge2,
          List.drop_of_length_le hge3, hsub]
    · have hlen : f.text.length ≤ start := Nat.le_of_not_lt h1
      have hlen2 : f.text.length ≤ start + n := by omega
      have hsub : start + n - f.text.length = start - f.text.length + n := by omega
      rw [if_neg h1]
      obtain ⟨i1, i2⟩ := ih (start - f.text.length) n
      simp [fragmentsText, i1, i2, List.take_append_eq_append_take,
        List.drop_append_eq_append_drop, List.take_of_length_le hlen,
        List.drop_of_length_le hlen, List.drop_of_length_le hlen2, hsub]

/-- The text content of `insert`: the new text is spliced into the plain text
of the line at the caret column. -/
theorem plainText_insert (b : TextBlock) (cursor : TextCursor) (s : List Char) :
    (b.insert cursor s).plainText
      = b.plainText.take cursor.column ++ s ++ b.plainText.drop cursor.column := by
  simp only [insert, plainText_insertEmptyFragmentIfNeeded, plainText_simplify]
  exact fragmentsText_insertFragments _ _ _ _

/-- The text content of `remove(start, n, cursor)`: the `n` characters from
column `start` on are returned and are gone from the plain text of the line. -/
theorem plainText_removeN (b : TextBlock) (start n : Nat) (cursor : TextCursor) :
    (b.removeN start n cursor).1 = (b.plainText.drop start).take n
      ∧ (b.removeN start n cursor).2.plainText
        = b.plainText.take start ++ b.plainText.drop (start + n) := by
  obtain ⟨r1, r2⟩ := removeChars_spec b._fragments start n
  refine ⟨r1, ?_⟩
  simp only [removeN, plainText_insertEmptyFragmentIfNeeded, plainText_simplify]
  exact r2

theorem splitFragments_text (l : List TextFragment) (column : Nat) :
    fragmentsText (splitFragments l column).1 = (fragmentsText l).take column
      ∧ fragmentsText (splitFragments l column).2 = (fragmentsText l).drop column := by
  induction l generalizing column with
  | nil => simp [splitFragments, fragmentsText]
  | cons f fs ih =>
    simp only [splitFragments]
    by_cases h0 : column = 0
    · simp [h0, fragmentsText]
    · rw [if_neg h0]
      by_cases h1 : column < f.columns
      · have hlen : column ≤ f.text.length := Nat.le_of_lt h1
        rw [if_pos h1]
        simp [fragmentsText, TextFragment.split, List.take_append_of_le_length hlen,
          List.drop_append_of_le_length hlen]
      · rw [if_neg h1]
        have hlen : f.text.length ≤ column := Nat.le_of_not_lt h1
        obtain ⟨i1, i2⟩ := ih (column - f.columns)
        simp only [TextFragment.columns] at i1 i2 ⊢
        simp only [fragmentsText, i1, i2]
        constructor
        · rw [List.take_append_eq_append_take, List.take_of_length_le hlen]
        · rw [List.drop_append_eq_append_drop, List.drop_of_length_le hlen, List.nil_append]

end TextBlock

/-- C1: every block reached from a well-formed block by a finite sequence of
`insert` and `remove` calls with in-range columns has `columns()` equal to the
sum of the character counts of its fragments, and no two consecutive fragments
of it have the same format. -/
theorem TextBlock.edits_preserve_invariant (b0 b : TextBlock) (es : List TextBlock.Edit)
    (h0 : b0.wellFormed) (hrun : TextBlock.applyEdits b0 es = some b) :
    b.columns = (b._fragments.map TextFragment.columns).sum
      ∧ List.Chain' (fun f g : TextFragment => f.format ≠ g.format) b._fragments :=
  ⟨TextBlock.columns_eq_sum b,
    (TextBlock.formatsDiffer_iff _).1 (TextBlock.wellFormed_applyEdits es b0 b h0 hrun).2.1⟩

/-- Witness for C1: inserting a bold "XY" into "hello" at column 2 and removing
the character at column 2 gives "he", a bold "Y" and "llo". -/
theorem TextBlock.edits_preserve_invariant_witness :
    sampleLine.wellFormed ∧ TextBlock.applyEdits sampleLine sampleEdits = some sampleEdited
      ∧ sampleEdited.columns = (sampleEdited._fragments.map TextFragment.columns).sum
      ∧ List.Chain' (fun f g : TextFragment => f.format ≠ g.format) sampleEdited._fragments :=
  ⟨by decide, by decide,
    TextBlock.edits_preserve_invariant sampleLine sampleEdited sampleEdits (by decide)
      (by decide)⟩

/-- C2: a block never has zero fragments after an editing call; and for a block
that consists of a single fragment holding a single character, `remove(0,
cursor)` returns that character and leaves exactly one fragment, with empty
text and the format of the cursor, so that `columns()` is 0. -/
theorem TextBlock.remove_sole_character (b : TextBlock) (f : TextFragment) (ch : Char)
    (cursor : TextCursor) (hb : b._fragments = [f]) (hf : f.text = [ch]) :
    (∀ e : TextBlock.Edit, (e.apply b)._fragments ≠ [])
      ∧ (b.remove 0 cursor).2._fragments = [TextFragment.fromCursor cursor []]
      ∧ (TextFragment.fromCursor cursor []).text = []
      ∧ (TextFragment.fromCursor cursor []).format = cursor.format
      ∧ (b.remove 0 cursor).2.columns = 0
      ∧ (b.remove 0 cursor).1 = [ch] := by
  have h1 : TextBlock.removeChars b._fragments 0 1 = ([ch], [{ f with text := [] }]) := by
    rw [hb]
    simp [TextBlock.removeChars, TextFragment.columns, hf]
  have h2 : (TextBlock.simplify { b with _fragments := [{ f with text := [] }] })._fragments
      = [] := by
    simp [TextBlock.simplify, TextBlock.removeEmptyFragment, TextBlock.mergeAdjacent]
  have h3 : (b.remove 0 cursor).2._fragments = [TextFragment.fromCursor cursor []] := by
    simp only [TextBlock.remove, TextBlock.removeN, h1, TextBlock.insertEmptyFragmentIfNeeded,
      h2, if_true]
  refine ⟨fun e => (TextBlock.wellFormed_apply b e).1, h3, rfl, rfl, ?_, ?_⟩
  · simp [TextBlock.columns, h3, TextFragment.columns, TextFragment.fromCursor]
  · simp only [TextBlock.remove, TextBlock.removeN, h1]

/-- Witness for C2: removing the character of the bold line "a" with a caret in
the default format. -/
theorem TextBlock.remove_sole_character_witness :
    sampleSingle._fragments = [{ format := sampleBold, text := ['a'] }]
      ∧ (sampleSingle.remove 0 (sampleCaret 0 {})).2._fragments
          = [TextFragment.fromCursor (sampleCaret 0 {}) []]
      ∧ (sampleSingle.remove 0 (sampleCaret 0 {})).2.columns = 0 :=
  ⟨rfl,
    (TextBlock.remove_sole_character sampleSingle { format := sampleBold, text := ['a'] } 'a'
      (sampleCaret 0 {}) rfl rfl).2.1,
    (TextBlock.remove_sole_character sampleSingle { format := sampleBold, text := ['a'] } 'a'
      (sampleCaret 0 {}) rfl rfl).2.2.2.2.1⟩

/-- C5: for a fragment with text `t` and a column `c` with `0 < c < columns()`,
`split(c)` returns a fragment with the same format that holds the characters of
`t` from column `c` to the end and leaves this fragment with the first `c`
characters; the two texts concatenate to `t`, their column counts add up to the
original `columns()`, and neither is empty. -/
theorem TextFragment.split_fragment_spec (f : TextFragment) (c : Nat) (h0 : 0 < c)
    (h1 : c < f.columns) :
    (f.split c).1.format = f.format
      ∧ (f.split c).1.text = f.text.drop c
      ∧ (f.split c).2.text = f.text.take c
      ∧ (f.split c).2.format = f.format
      ∧ (f.split c).2.text ++ (f.split c).1.text = f.text
      ∧ (f.split c).2.columns + (f.split c).1.columns = f.columns
      ∧ (f.split c).2.columns = c
      ∧ (f.split c).2.text ≠ [] ∧ (f.split c).1.text ≠ [] := by
  have hlen : c < f.text.length := h1
  refine ⟨rfl, rfl, rfl, rfl, ?_, ?_, ?_, ?_, ?_⟩
  · simp [TextFragment.split]
  · simp [TextFragment.split, TextFragment.columns]
    omega
  · simp [TextFragment.split, TextFragment.columns]
    omega
  · intro hnil
    have hl : (f.split c).2.text.length = c := by
      simp only [TextFragment.split, List.length_take]
      omega
    rw [hnil, List.length_nil] at hl
    omega
  · intro hnil
    have hl : (f.split c).1.text.length = f.text.length - c := by
      simp only [TextFragment.split, List.length_drop]
    rw [hnil, List.length_nil] at hl
    omega

/-- Witness for C5: "hello" split at column 2 gives "he" and "llo". -/
theorem TextFragment.split_fragment_spec_witness :
    0 < 2 ∧ 2 < sampleFragment.columns
      ∧ (sampleFragment.split 2).1.text = "llo".toList
      ∧ (sampleFragment.split 2).2.text = "he".toList
      ∧ (sampleFragment.split 2).2.columns + (sampleFragment.split 2).1.columns
          = sampleFragment.columns :=
  ⟨by decide, by decide,
    (TextFragment.split_fragment_spec sampleFragment 2 (by decide) (by decide)).2.1.trans (by decide),
    (TextFragment.split_fragment_spec sampleFragment 2 (by decide) (by decide)).2.2.1.trans (by decide),
    (TextFragment.split_fragment_spec sampleFragment 2 (by decide) (by decide)).2.2.2.2.2.1⟩

/-- C6: for a block with plain text `t` and a column `c` in `[0, columns()]`,
`split(c, cursor)` returns a new block whose plain text is `t` from column `c`
on and leaves this block with the first `c` characters of `t`; the new block
has the `eol` value this block had before the call, and the `eol` of this block
is cleared. -/
theorem TextBlock.split_block_spec (b : TextBlock) (column : Nat) (cursor : TextCursor)
    (h : column ≤ b.columns) :
    (b.split column cursor).1.plainText = b.plainText.drop column
      ∧ (b.split column cursor).2.plainText = b.plainText.take column
      ∧ (b.split column cursor).2.columns = column
      ∧ (b.split column cursor).1.eol = b.eol
      ∧ (b.split column cursor).2.eol = false := by
  obtain ⟨t1, t2⟩ := TextBlock.splitFragments_text b._fragments column
  have p1 : (b.split column cursor).1.plainText = b.plainText.drop column := by
    simp only [TextBlock.split, TextBlock.plainText_insertEmptyFragmentIfNeeded]
    exact t2
  have p2 : (b.split column cursor).2.plainText = b.plainText.take column := by
    simp only [TextBlock.split, TextBlock.plainText_insertEmptyFragmentIfNeeded]
    exact t1
  refine ⟨p1, p2, ?_, ?_, ?_⟩
  · rw [← TextBlock.length_plainText, p2, List.length_take, TextBlock.length_plainText]
    exact Nat.min_eq_left h
  · simp only [TextBlock.split, TextBlock.eol_insertEmptyFragmentIfNeeded]
    rfl
  · simp only [TextBlock.split, TextBlock.eol_insertEmptyFragmentIfNeeded]
    rfl

/-- Witness for C6: the last line "hello" split at column 2 yields "he", no
longer the last line, and the new last line "llo". -/
theorem TextBlock.split_block_spec_witness :
    2 ≤ (sampleLine.setEol true).columns
      ∧ ((sampleLine.setEol true).split 2 (sampleCaret 2 {})).1.plainText = "llo".toList
      ∧ ((sampleLine.setEol true).split 2 (sampleCaret 2 {})).2.plainText = "he".toList
      ∧ ((sampleLine.setEol true).split 2 (sampleCaret 2 {})).1.eol = true
      ∧ ((sampleLine.setEol true).split 2 (sampleCaret 2 {})).2.eol = false :=
  ⟨by decide,
    (TextBlock.split_block_spec (sampleLine.setEol true) 2 (sampleCaret 2 {}) (by decide)).1.trans
      (by decide),
    (TextBlock.split_block_spec (sampleLine.setEol true) 2 (sampleCaret 2 {}) (by decide)).2.1.trans
      (by decide),
    (TextBlock.split_block_spec (sampleLine.setEol true) 2 (sampleCaret 2 {}) (by decide)).2.2.2.1,
    (TextBlock.split_block_spec (sampleLine.setEol true) 2 (sampleCaret 2 {}) (by decide)).2.2.2.2⟩

/-! ### Cursor -/

namespace TextCursor

theorem position_zero (blocks : List TextBlock) (column : Nat) :
    position blocks 0 column = column := by
  simp [position]

theorem position_succ (b : TextBlock) (bs : List TextBlock) (row column : Nat) :
    position (b :: bs) (row + 1) column = b.columns + 1 + position bs row column := by
  simp [position, Nat.add_assoc]

theorem positionToLocalCoordFrom_position (blocks : List TextBlock) (r0 row column : Nat)
    (b : TextBlock) (hb : blocks[row]? = some b) (hcol : column ≤ b.columns) :
    positionToLocalCoordFrom blocks r0 (position blocks row column) = some (r0 + row, column) := by
  induction blocks generalizing r0 row with
  | nil => simp at hb
  | cons a as ih =>
    cases row with
    | zero =>
      simp only [List.getElem?_cons_zero, Option.some.injEq] at hb
      subst hb
      simp [positionToLocalCoordFrom, position_zero, hcol]
    | succ k =>
      simp only [List.getElem?_cons_succ] at hb
      have hgt : ¬ (a.columns + 1 + position as k column ≤ a.columns) := by omega
      have hsub : a.columns + 1 + position as k column - a.columns - 1 = position as k column := by
        omega
      rw [position_succ, positionToLocalCoordFrom, if_neg hgt, hsub, ih (r0 + 1) k hb]
      congr 2
      omega

theorem position_of_positionToLocalCoordFrom (blocks : List TextBlock) (r0 p r c : Nat)
    (h : positionToLocalCoordFrom blocks r0 p = some (r, c)) :
    r0 ≤ r ∧ p = position blocks (r - r0) c := by
  induction blocks generalizing r0 p with
  | nil => simp [positionToLocalCoordFrom] at h
  | cons a as ih =>
    simp only [positionToLocalCoordFrom] at h
    split at h
    · simp only [Option.some.injEq, Prod.mk.injEq] at h
      obtain ⟨h1, h2⟩ := h
      subst h1 h2
      simp [position_zero]
    · obtain ⟨h1, h2⟩ := ih (r0 + 1) _ h
      refine ⟨by omega, ?_⟩
      have e : r - r0 = (r - (r0 + 1)) + 1 := by omega
      rw [e, position_succ, ← h2]
      omega

end TextCursor

/-- C4: `position` and `positionToLocalCoord` are mutually inverse on the valid
caret positions: for a row of the text and a column of at most the column count
of that row, `positionToLocalCoord(position(row, column))` is `(row, column)`,
and `position(row, column)` is the only offset that `positionToLocalCoord` maps
to `(row, column)`; the offset counts one unit per character and one per line
break crossed, and `currentPosition()` is this offset at the caret. -/
theorem TextCursor.position_roundtrip (blocks : List TextBlock) (row column : Nat)
    (hrow : row < blocks.length) (hcol : column ≤ TextCursor.lineColumns blocks row) :
    TextCursor.positionToLocalCoord blocks (TextCursor.position blocks row column)
        = some (row, column)
      ∧ (∀ p, TextCursor.positionToLocalCoord blocks p = some (row, column) →
          p = TextCursor.position blocks row column)
      ∧ TextCursor.position blocks row column
          = ((blocks.take row).map TextBlock.columns).sum + row + column
      ∧ (∀ c : TextCursor, c.row = row → c.column = column →
          TextCursor.positionToLocalCoord blocks (TextCursor.currentPosition blocks c)
            = some (c.row, c.column)) := by
  have hget : blocks[row]? = some blocks[row] := List.getElem?_eq_getElem hrow
  have hcol2 : column ≤ blocks[row].columns := by
    simpa [TextCursor.lineColumns, hget] using hcol
  have hfwd : TextCursor.positionToLocalCoord blocks (TextCursor.position blocks row column)
      = some (row, column) := by
    have h := TextCursor.positionToLocalCoordFrom_position blocks 0 row column blocks[row]
      hget hcol2
    simpa [TextCursor.positionToLocalCoord] using h
  refine ⟨hfwd, ?_, ?_, ?_⟩
  · intro p hp
    have h := TextCursor.position_of_positionToLocalCoordFrom blocks 0 p row column hp
    simpa using h.2
  · have hlen : (blocks.take row).length = row := by
      rw [List.length_take]
      omega
    have hsum : ∀ l : List TextBlock,
        (l.map (fun b => b.columns + 1)).sum = (l.map TextBlock.columns).sum + l.length := by
      intro l
      induction l with
      | nil => rfl
      | cons a as ih =>
        simp only [List.map_cons, List.sum_cons, List.length_cons, ih]
        omega
    rw [TextCursor.position, hsum, hlen]
  · intro c hr hc
    simp only [TextCursor.row, TextCursor.column] at hr hc
    simp only [TextCursor.currentPosition, TextCursor.row, TextCursor.column, hr, hc]
    exact hfwd

/-- Witness for C4: in the three-line text, row 2 and column 1 are at offset 8:
five characters and a line break, an empty line and a line break, and one
character. -/
theorem TextCursor.position_roundtrip_witness :
    2 < sampleText.length ∧ 1 ≤ TextCursor.lineColumns sampleText 2
      ∧ TextCursor.position sampleText 2 1 = 8
      ∧ TextCursor.positionToLocalCoord sampleText (TextCursor.position sampleText 2 1)
          = some (2, 1) :=
  ⟨by decide, by decide, by decide,
    (TextCursor.position_roundtrip sampleText 2 1 (by decide) (by decide)).1⟩

/-- C8: for a text with at least one block, `movePosition(End)` puts the caret
at the end of the last line, and a following `movePosition(Start)`, both with
the default `MoveAnchor` mode and count 1, leaves the caret at row 0, column 0
with no selection. -/
theorem TextCursor.end_then_start (ext : TextCursor.MoveOperation → Nat → Nat → Nat × Nat)
    (blocks : List TextBlock) (c : TextCursor) (h : blocks ≠ []) :
    ((movePosition ext blocks c MoveOperation.End MoveMode.MoveAnchor 1).2.row
        = blocks.length - 1
      ∧ (movePosition ext blocks c MoveOperation.End MoveMode.MoveAnchor 1).2.row
        < blocks.length
      ∧ (movePosition ext blocks c MoveOperation.End MoveMode.MoveAnchor 1).2.column
        = lineColumns blocks (blocks.length - 1))
    ∧ (movePosition ext blocks
        (movePosition ext blocks c MoveOperation.End MoveMode.MoveAnchor 1).2
        MoveOperation.Start MoveMode.MoveAnchor 1).2.row = 0
    ∧ (movePosition ext blocks
        (movePosition ext blocks c MoveOperation.End MoveMode.MoveAnchor 1).2
        MoveOperation.Start MoveMode.MoveAnchor 1).2.column = 0
    ∧ (movePosition ext blocks
        (movePosition ext blocks c MoveOperation.End MoveMode.MoveAnchor 1).2
        MoveOperation.Start MoveMode.MoveAnchor 1).2.hasSelection = false := by
  have hpos : 0 < blocks.length := List.length_pos.2 h
  simp [movePosition, moveOnce, moveTarget, clearSelection, row, column, hasSelection, hpos]

/-- Witness for C8: in the three-line text the end is row 2, column 3, and the
start after it is row 0, column 0 without selection. -/
theorem TextCursor.end_then_start_witness :
    sampleText ≠ []
      ∧ (TextCursor.movePosition sampleExt sampleText {} TextCursor.MoveOperation.End
          TextCursor.MoveMode.MoveAnchor 1).2.row = 2
      ∧ (TextCursor.movePosition sampleExt sampleText
          (TextCursor.movePosition sampleExt sampleText {} TextCursor.MoveOperation.End
            TextCursor.MoveMode.MoveAnchor 1).2
          TextCursor.MoveOperation.Start TextCursor.MoveMode.MoveAnchor 1).2.row = 0
      ∧ (TextCursor.movePosition sampleExt sampleText
          (TextCursor.movePosition sampleExt sampleText {} TextCursor.MoveOperation.End
            TextCursor.MoveMode.MoveAnchor 1).2
          TextCursor.MoveOperation.Start TextCursor.MoveMode.MoveAnchor 1).2.hasSelection
          = false :=
  ⟨by decide,
    (TextCursor.end_then_start sampleExt sampleText {} (by decide)).1.1.trans (by decide),
    (TextCursor.end_then_start sampleExt sampleText {} (by decide)).2.1,
    (TextCursor.end_then_start sampleExt sampleText {} (by decide)).2.2.2⟩

/-! ### Default format, fresh cursor, navigation keys -/

/-- C11: a default-constructed `CharFormat` has font size 12.0, an empty font
family, normal vertical alignment, and none of bold, italic, underline and
strike set. -/
theorem CharFormat.default_constructed :
    ({} : CharFormat).fontSize = 12 ∧ ({} : CharFormat).fontFamily = ""
      ∧ ({} : CharFormat).valign = VerticalAlignment.AlignNormal
      ∧ ({} : CharFormat).style = FontStyle.Normal
      ∧ ({} : CharFormat).bold = false ∧ ({} : CharFormat).italic = false
      ∧ ({} : CharFormat).underline = false ∧ ({} : CharFormat).strike = false :=
  ⟨rfl, rfl, rfl, rfl, by decide, by decide, by decide, by decide⟩

/-- C12: `isTextNavigationKey(key, modifiers)` is true exactly when the key is
Tab, or the key is Space and the modifiers are not exactly
`TextEditingControlModifier`; so, the two key codes being different, Space with
`TextEditingControlModifier` is not a navigation key, and Tab is one under
every modifier. -/
theorem isTextNavigationKey_iff (k : KeyCodes) (key : Int) (modifiers : Nat)
    (hk : k.Key_Space ≠ k.Key_Tab) :
    (isTextNavigationKey k key modifiers = true ↔
        key = k.Key_Tab ∨ (key = k.Key_Space ∧ modifiers ≠ k.TextEditingControlModifier))
      ∧ isTextNavigationKey k k.Key_Space k.TextEditingControlModifier = false
      ∧ ∀ m : Nat, isTextNavigationKey k k.Key_Tab m = true := by
  refine ⟨?_, ?_, ?_⟩
  · simp only [isTextNavigationKey, Bool.or_eq_true, Bool.and_eq_true, beq_iff_eq, bne_iff_ne,
      ne_eq]
    constructor
    · rintro (h | h)
      · exact Or.inr h
      · exact Or.inl h
    · rintro (h | h)
      · exact Or.inr h
      · exact Or.inl h
  · simp [isTextNavigationKey, hk]
  · intro m
    simp [isTextNavigationKey]

/-- Witness for C12 with the sample key codes: Space with the control modifier
is not a navigation key, Space without modifier is, and Tab is. -/
theorem isTextNavigationKey_iff_witness :
    sampleKeys.Key_Space ≠ sampleKeys.Key_Tab
      ∧ isTextNavigationKey sampleKeys 32 67108864 = false
      ∧ isTextNavigationKey sampleKeys 32 0 = true
      ∧ isTextNavigationKey sampleKeys 16777217 67108864 = true :=
  ⟨by decide, (isTextNavigationKey_iff sampleKeys 32 0 (by decide)).2.1,
    (isTextNavigationKey_iff sampleKeys 32 0 (by decide)).1.2 (Or.inr ⟨rfl, by decide⟩),
    (isTextNavigationKey_iff sampleKeys 32 0 (by decide)).2.2 67108864⟩

/-- C14: a freshly constructed `TextCursor` is not editing and has caret
(row 0, column 0) and anchor (selectLine 0, selectColumn 0), so `editing()` and
`hasSelection()` are false; and each of `setRow`, `setColumn`, `setSelectLine`
and `setSelectColumn` sets its own field and leaves the other fields, the
format and the editing flag as they were. -/
theorem TextCursor.fresh_cursor_and_setters (c : TextCursor) (val : Nat) :
    (({} : TextCursor).editing = false ∧ ({} : TextCursor).row = 0
        ∧ ({} : TextCursor).column = 0 ∧ ({} : TextCursor).selectLine = 0
        ∧ ({} : TextCursor).selectColumn = 0 ∧ ({} : TextCursor).hasSelection = false)
      ∧ ((c.setRow val).row = val ∧ c.setRow val = { c with _row := val }
          ∧ (c.setRow val).column = c.column ∧ (c.setRow val).selectLine = c.selectLine
          ∧ (c.setRow val).selectColumn = c.selectColumn
          ∧ (c.setRow val).editing = c.editing ∧ (c.setRow val).format = c.format)
      ∧ ((c.setColumn val).column = val ∧ c.setColumn val = { c with _column := val }
          ∧ (c.setColumn val).row = c.row ∧ (c.setColumn val).selectLine = c.selectLine
          ∧ (c.setColumn val).selectColumn = c.selectColumn
          ∧ (c.setColumn val).editing = c.editing ∧ (c.setColumn val).format = c.format)
      ∧ ((c.setSelectLine val).selectLine = val
          ∧ c.setSelectLine val = { c with _selectLine := val }
          ∧ (c.setSelectLine val).row = c.row ∧ (c.setSelectLine val).column = c.column
          ∧ (c.setSelectLine val).selectColumn = c.selectColumn
          ∧ (c.setSelectLine val).editing = c.editing
          ∧ (c.setSelectLine val).format = c.format)
      ∧ ((c.setSelectColumn val).selectColumn = val
          ∧ c.setSelectColumn val = { c with _selectColumn := val }
          ∧ (c.setSelectColumn val).row = c.row ∧ (c.setSelectColumn val).column = c.column
          ∧ (c.setSelectColumn val).selectLine = c.selectLine
          ∧ (c.setSelectColumn val).editing = c.editing
          ∧ (c.setSelectColumn val).format = c.format) :=
  ⟨⟨rfl, rfl, rfl, rfl, rfl, by decide⟩, ⟨rfl, rfl, rfl, rfl, rfl, rfl, rfl⟩,
    ⟨rfl, rfl, rfl, rfl, rfl, rfl, rfl⟩, ⟨rfl, rfl, rfl, rfl, rfl, rfl, rfl⟩,
    ⟨rfl, rfl, rfl, rfl, rfl, rfl, rfl⟩⟩

/-! ### Frames -/

/-- When the box has a page or line break, a dropped layout break of a kind
that is already set is deleted: nothing is returned, added or replaced. -/
theorem Box.drop_discards_when_page_or_line (b : Box) (e : EngravingItem)
    (hflag : e.onStaff = false) (htype : e.type = ElementType.LAYOUT_BREAK)
    (hbreak : (b.pageBreak || b.lineBreak) = true) (hkind : b.kindAlreadySet e = true) :
    b.drop e = (none, [Effect.deleted e]) := by
  unfold Box.kindAlreadySet at hkind
  simp only [Box.drop, hflag, htype, hbreak, hkind, if_true]
  simp

/-- C13 (the code at the failing input): on a frame whose only break flag is
the section break, a dropped section break, not flagged `ON_STAFF`, is of a
kind already set on the box, and yet `Box::drop` does not discard it: the guard
`pageBreak() || lineBreak()` is false, so the break gets the box as parent, is
added to the score with `undoAddElement` and is returned. -/
theorem Box.drop_section_break_on_section_only :
    sampleSectionBreak.onStaff = false
      ∧ sampleSectionBreak.type = ElementType.LAYOUT_BREAK
      ∧ sampleSectionBox.kindAlreadySet sampleSectionBreak = true
      ∧ sampleSectionBox.drop sampleSectionBreak
          = (some ((sampleSectionBreak.setTrack none).setParent 7),
              [Effect.undoAddElement ((sampleSectionBreak.setTrack none).setParent 7)])
      ∧ (sampleSectionBox.drop sampleSectionBreak).1 ≠ none
      ∧ (sampleSectionBox.drop sampleSectionBreak).2.any Effect.isAdd = true := by
  decide

/-- The payloads that `Box::acceptDrop` rejects: the element is flagged
`ON_STAFF`, or its type is none of `LAYOUT_BREAK`, `TEXT`, `STAFF_TEXT`,
`IMAGE` and `SYMBOL`, it is not one of the five frame and measure action icons,
and it is not a `BAR_LINE` on an `HBox`. -/
theorem Box.acceptDrop_eq_false_iff (b : Box) (e : EngravingItem) :
    b.acceptDrop e = false ↔
      (e.onStaff = true
        ∨ ((e.type ∉ [ElementType.LAYOUT_BREAK, ElementType.TEXT, ElementType.STAFF_TEXT,
              ElementType.IMAGE, ElementType.SYMBOL])
            ∧ ¬ (e.type = ElementType.ACTION_ICON
                ∧ e.actionType ∈ [ActionIconType.VFRAME, ActionIconType.TFRAME,
                    ActionIconType.FFRAME, ActionIconType.HFRAME, ActionIconType.MEASURE])
            ∧ ¬ (e.type = ElementType.BAR_LINE ∧ b.isHBox = true))) := by
  by_cases hs : e.onStaff = true
  · simp [Box.acceptDrop, hs]
  · cases ht : e.type <;> cases ha : e.actionType <;>
      simp_all [Box.acceptDrop]

/-- C15: `Box::drop` never acts on a payload that `Box::acceptDrop` rejects:
when `acceptDrop` returns false (the element is flagged `ON_STAFF`, or its type
is outside `LAYOUT_BREAK`, `TEXT`, `STAFF_TEXT`, `IMAGE`, `SYMBOL`, the five
frame and measure action icons, and `BAR_LINE` on an `HBox`), `drop` returns
null and makes no call into the score, so no add, replace or `insertMeasure`. -/
theorem Box.drop_of_not_accepted (b : Box) (e : EngravingItem)
    (h : b.acceptDrop e = false) :
    (b.drop e).1 = none ∧ (b.drop e).2 = []
      ∧ (∀ a ∈ (b.drop e).2,
          a.isAdd = false ∧ a.isReplace = false ∧ a.isInsertMeasure = false)
      ∧ (e.onStaff = true
        ∨ ((e.type ∉ [ElementType.LAYOUT_BREAK, ElementType.TEXT, ElementType.STAFF_TEXT,
              ElementType.IMAGE, ElementType.SYMBOL])
            ∧ ¬ (e.type = ElementType.ACTION_ICON
                ∧ e.actionType ∈ [ActionIconType.VFRAME, ActionIconType.TFRAME,
                    ActionIconType.FFRAME, ActionIconType.HFRAME, ActionIconType.MEASURE])
            ∧ ¬ (e.type = ElementType.BAR_LINE ∧ b.isHBox = true))) := by
  have key : b.drop e = (none, []) := by
    by_cases hs : e.onStaff = true
    · simp [Box.drop, hs]
    · cases ht : e.type <;> cases ha : e.actionType <;>
        simp_all [Box.acceptDrop, Box.drop]
  refine ⟨?_, ?_, ?_, (Box.acceptDrop_eq_false_iff b e).1 h⟩
  · rw [key]
  · rw [key]
  · rw [key]
    intro a ha
    cases ha

/-- Witness for C15: a bar line dropped on a vertical frame is rejected, and
`drop` returns null without a call into the score. -/
theorem Box.drop_of_not_accepted_witness :
    sampleVBox.acceptDrop sampleBarLine = false
      ∧ (sampleVBox.drop sampleBarLine).1 = none ∧ (sampleVBox.drop sampleBarLine).2 = [] :=
  ⟨by decide, (Box.drop_of_not_accepted sampleVBox sampleBarLine (by decide)).1,
    (Box.drop_of_not_accepted sampleVBox sampleBarLine (by decide)).2.1⟩

/-- C16: for each of the box properties `BOX_HEIGHT`, `BOX_WIDTH`, `TOP_GAP`,
`BOTTOM_GAP`, `LEFT_MARGIN`, `RIGHT_MARGIN`, `TOP_MARGIN` and `BOTTOM_MARGIN`
and every value `v` of the type of the property, `Box::setProperty(p, v)`
returns true, a following `Box::getProperty(p)` returns `v`, and `getProperty`
of each other box property returns what it returned before the call. -/
theorem Box.setProperty_getProperty (mscVersion : Int) (measureBaseGet : Pid → PropertyValue)
    (measureBaseSet : Box → Pid → PropertyValue → Bool × Box) (b : Box) (p : Pid)
    (v : PropertyValue) (hp : p ∈ Box.sizeProperties) (hv : Box.hasTypeOf v p = true) :
    (b.setProperty measureBaseSet p v).1 = true
      ∧ Box.getProperty mscVersion measureBaseGet (b.setProperty measureBaseSet p v).2.1 p = v
      ∧ ∀ q ∈ Box.boxProperties, q ≠ p →
          Box.getProperty mscVersion measureBaseGet (b.setProperty measureBaseSet p v).2.1 q
            = Box.getProperty mscVersion measureBaseGet b q := by
  simp only [Box.sizeProperties, List.mem_cons, List.mem_singleton, List.not_mem_nil,
    or_false] at hp
  rcases hp with rfl | rfl | rfl | rfl | rfl | rfl | rfl | rfl <;>
    cases v <;> simp [Box.hasTypeOf] at hv <;>
    simp [Box.setProperty, Box.getProperty, Box.boxProperties, PropertyValue.valueSpatium,
      PropertyValue.valueMillimetre, PropertyValue.toDouble]

/-- Witness for C16: setting the left margin of the sample frame to 5 and
reading it and the right margin back. -/
theorem Box.setProperty_getProperty_witness :
    Pid.LEFT_MARGIN ∈ Box.sizeProperties
      ∧ Box.hasTypeOf (PropertyValue.real 5) Pid.LEFT_MARGIN = true
      ∧ (sampleVBox.setProperty sampleBaseSet Pid.LEFT_MARGIN (PropertyValue.real 5)).1 = true
      ∧ Box.getProperty 400 sampleBaseGet
          (sampleVBox.setProperty sampleBaseSet Pid.LEFT_MARGIN (PropertyValue.real 5)).2.1
          Pid.LEFT_MARGIN = PropertyValue.real 5
      ∧ Box.getProperty 400 sampleBaseGet
          (sampleVBox.setProperty sampleBaseSet Pid.LEFT_MARGIN (PropertyValue.real 5)).2.1
          Pid.RIGHT_MARGIN = Box.getProperty 400 sampleBaseGet sampleVBox Pid.RIGHT_MARGIN :=
  ⟨by decide, by decide,
    (Box.setProperty_getProperty 400 sampleBaseGet sampleBaseSet sampleVBox Pid.LEFT_MARGIN
      (PropertyValue.real 5) (by decide) (by decide)).1,
    (Box.setProperty_getProperty 400 sampleBaseGet sampleBaseSet sampleVBox Pid.LEFT_MARGIN
      (PropertyValue.real 5) (by decide) (by decide)).2.1,
    (Box.setProperty_getProperty 400 sampleBaseGet sampleBaseSet sampleVBox Pid.LEFT_MARGIN
      (PropertyValue.real 5) (by decide) (by decide)).2.2 Pid.RIGHT_MARGIN (by decide)
      (by decide)⟩

/-- C17: `HBox::drag` clamps the horizontal offset inside a `VBox` parent.
With `x1 = offset.x + evtDelta.x` and `x2 = parent width - own width -
(leftMargin + rightMargin) * DPMM`, when the parent is a `VBox` and `x2 >= 0`
the new offset is `(min(max(x1, 0), x2), 0)`, so its x lies in `[0, x2]` and is
`x1` when `x1` is in that range; when the parent is not a `VBox` the new offset
is `(x1, 0)`.  Over exact rational arithmetic. -/
theorem HBox.drag_clamps (DPMM : ℚ) (parent : DragParent) (b : Box) (evtDelta : PointF) :
    (parent.type = ElementType.VBOX → 0 ≤ HBox.dragX2 DPMM parent b →
        (HBox.drag DPMM parent b evtDelta).offset
            = { x := min (max (HBox.dragX1 b evtDelta) 0) (HBox.dragX2 DPMM parent b), y := 0 }
          ∧ 0 ≤ (HBox.drag DPMM parent b evtDelta).offset.x
          ∧ (HBox.drag DPMM parent b evtDelta).offset.x ≤ HBox.dragX2 DPMM parent b
          ∧ (0 ≤ HBox.dragX1 b evtDelta → HBox.dragX1 b evtDelta ≤ HBox.dragX2 DPMM parent b →
              (HBox.drag DPMM parent b evtDelta).offset.x = HBox.dragX1 b evtDelta))
      ∧ (parent.type ≠ ElementType.VBOX →
          (HBox.drag DPMM parent b evtDelta).offset
            = { x := HBox.dragX1 b evtDelta, y := 0 }) := by
  constructor
  · intro hv h2
    have hx : (HBox.drag DPMM parent b evtDelta).offset.x
        = min (max (HBox.dragX1 b evtDelta) 0) (HBox.dragX2 DPMM parent b) := by
      simp only [HBox.drag, hv, if_true]
      by_cases h1 : HBox.dragX1 b evtDelta < 0
      · rw [if_pos h1, max_eq_right (le_of_lt h1), min_eq_left h2]
      · rw [if_neg h1, max_eq_left (le_of_not_lt h1)]
        by_cases h3 : HBox.dragX1 b evtDelta > HBox.dragX2 DPMM parent b
        · rw [if_pos h3, min_eq_right (le_of_lt h3)]
        · rw [if_neg h3, min_eq_left (le_of_not_lt h3)]
    refine ⟨?_, ?_, ?_, ?_⟩
    · rw [← hx]
      rfl
    · rw [hx]
      exact le_min (le_max_right _ _) h2
    · rw [hx]
      exact min_le_right _ _
    · intro h0 hle
      rw [hx, max_eq_left h0, min_eq_left hle]
  · intro hv
    simp [HBox.drag, hv]

/-- Witness for C17: the sample frame of width 20 at offset 5 in a parent of
width 100 with margins 2 and 3 (`DPMM` 1) has `x2 = 75`; dragged by 200 it
stops at 75, and under a parent that is not a `VBox` it goes to 205. -/
theorem HBox.drag_clamps_witness :
    sampleDragParent.type = ElementType.VBOX
      ∧ 0 ≤ HBox.dragX2 1 sampleDragParent sampleHBox
      ∧ (HBox.drag 1 sampleDragParent sampleHBox { x := 200 }).offset
          = { x := min (max (HBox.dragX1 sampleHBox { x := 200 }) 0)
                (HBox.dragX2 1 sampleDragParent sampleHBox), y := 0 }
      ∧ (HBox.drag 1 sampleDragParent sampleHBox { x := 200 }).offset.x
          ≤ HBox.dragX2 1 sampleDragParent sampleHBox
      ∧ (HBox.drag 1 { type := ElementType.HBOX } sampleHBox { x := 200 }).offset
          = { x := HBox.dragX1 sampleHBox { x := 200 }, y := 0 } := by
  have h2 : 0 ≤ HBox.dragX2 1 sampleDragParent sampleHBox := by
    norm_num [HBox.dragX2, sampleDragParent, sampleHBox]
  exact ⟨rfl, h2,
    ((HBox.drag_clamps 1 sampleDragParent sampleHBox { x := 200 }).1 rfl h2).1,
    ((HBox.drag_clamps 1 sampleDragParent sampleHBox { x := 200 }).1 rfl h2).2.2.1,
    (HBox.drag_clamps 1 { type := ElementType.HBOX } sampleHBox { x := 200 }).2 (by decide)⟩

/-- C18: `FBox::add` keeps the element list of the fret diagram box restricted
to fret diagrams: for an element that is not a fret diagram `add(e)` leaves
`el()` unchanged, for a fret diagram it appends the element as the last element
of `el()`; in both cases the parent of the element is set to the box. -/
theorem FBox.add_spec (b : Box) (e : EngravingItem) :
    (e.isFretDiagram = false → (FBox.add b e).1.el = b.el)
      ∧ (e.isFretDiagram = true →
          (FBox.add b e).1.el = b.el ++ [(FBox.add b e).2.1]
            ∧ (FBox.add b e).1.el.getLast? = some (FBox.add b e).2.1)
      ∧ (FBox.add b e).2.1.parent = some b.self
      ∧ (FBox.add b e).2.1 = e.setParent b.self := by
  by_cases h : e.isFretDiagram = true
  · have hp : (e.setParent b.self).isFretDiagram = true := h
    have hadd : FBox.add b e
        = ({ b with m_el := b.m_el ++ [e.setParent b.self] }, e.setParent b.self,
            [Effect.added (e.setParent b.self)]) := by
      unfold FBox.add
      rw [if_pos hp]
    rw [hadd]
    refine ⟨fun hf => ?_, fun _ => ⟨rfl, ?_⟩, rfl, rfl⟩
    · rw [h] at hf
      cases hf
    · simp [Box.el]
  · have hp : ¬ (e.setParent b.self).isFretDiagram = true := h
    have hadd : FBox.add b e = (b, e.setParent b.self, []) := by
      unfold FBox.add
      rw [if_neg hp]
    rw [hadd]
    exact ⟨fun _ => rfl, fun hf => absurd hf h, rfl, rfl⟩

/-- Witness for C18: a text added to the sample fret diagram box leaves its
list, a fret diagram is appended to it, and both get the box as parent. -/
theorem FBox.add_spec_witness :
    ({ type := ElementType.TEXT } : EngravingItem).isFretDiagram = false
      ∧ (FBox.add sampleFBox { type := ElementType.TEXT }).1.el = sampleFBox.el
      ∧ ({ type := ElementType.FRET_DIAGRAM } : EngravingItem).isFretDiagram = true
      ∧ (FBox.add sampleFBox { type := ElementType.FRET_DIAGRAM }).1.el
          = sampleFBox.el ++ [(FBox.add sampleFBox { type := ElementType.FRET_DIAGRAM }).2.1]
      ∧ (FBox.add sampleFBox { type := ElementType.TEXT }).2.1.parent = some sampleFBox.self :=
  ⟨by decide, (FBox.add_spec sampleFBox { type := ElementType.TEXT }).1 (by decide),
    by decide, ((FBox.add_spec sampleFBox { type := ElementType.FRET_DIAGRAM }).2.1 (by decide)).1,
    (FBox.add_spec sampleFBox { type := ElementType.TEXT }).2.2.1⟩

end MuseScore
